import Mathlib

/-!
# ADS131M08 driver: frame decoder and bus session

A shallow embedding of `src/ADS131M08.h` and `src/ADS131M08.cpp`.

* Bytes (`uint8_t`) and `uint32_t` values are natural numbers; `uint32_t`
  arithmetic is reduced modulo `2^32`, and the conversion to `int32_t` is
  `toInt32`.
* The fixed-size C arrays `_rxBuf` and `ADS131Data::ch` are lists with checked
  accesses: an access outside the list is the fault `Fault.outOfBounds`, a call
  through a null `_spi` is the fault `Fault.nullDeref`.
* The Arduino / ESP-IDF API is not part of the repository.  Every call to it
  is recorded in a log (`World.log`), `digitalWrite` moreover updates the level
  driven on the pin (`World.level`), and what the hardware and the library
  answer (the level read on a pin, the bytes clocked in, the bytes the bus
  library sends when it is given no transmit buffer, the status of a
  configuration call) is taken from an environment.
* `float` is IEEE-754 binary32 with round-to-nearest, ties-to-even: a finite
  value is `m * 2^e` (`F32.fin m e`); infinities, NaN and results in the
  subnormal range are `F32.other`, and the two zeros are not told apart.
-/

namespace ADS131

/-! ## Constants of `ADS131M08.h` -/

/-- Macro `ADS131_NUM_CHANNELS`: total number of channels, 8. -/
def ADS131_NUM_CHANNELS : Nat := 8

/-- Macro `ADS131_FRAME_BYTES`: 3 status bytes + 8 * 3 bytes channel data = 27. -/
def ADS131_FRAME_BYTES : Nat := 27

/-! ## The Arduino / ESP-IDF vocabulary used by the driver -/

/-- Logic level of a pin (`LOW` is 0, `HIGH` is 1). -/
inductive Level where
  | LOW
  | HIGH
deriving DecidableEq, Repr

/-- Pin direction passed to `pinMode`. -/
inductive PinMode where
  | INPUT
  | OUTPUT
deriving DecidableEq, Repr

/-- Bit order of `SPISettings`. -/
inductive BitOrder where
  | LSBFIRST
  | MSBFIRST
deriving DecidableEq, Repr

/-- SPI data mode of `SPISettings`. -/
inductive SpiMode where
  | SPI_MODE0
  | SPI_MODE1
  | SPI_MODE2
  | SPI_MODE3
deriving DecidableEq, Repr

/-- The SPI peripheral a `SPIClass` is bound to. -/
inductive SpiBus where
  | FSPI
  | HSPI
deriving DecidableEq, Repr

/-- Arduino `SPISettings(clock, bitOrder, dataMode)`. -/
structure SPISettings where
  clock : Nat
  bitOrder : BitOrder
  dataMode : SpiMode
deriving DecidableEq, Repr

/-- LEDC speed mode. -/
inductive LedcMode where
  | LEDC_HIGH_SPEED_MODE
  | LEDC_LOW_SPEED_MODE
deriving DecidableEq, Repr

/-- LEDC clock source selection. -/
inductive LedcClkCfg where
  | LEDC_AUTO_CLK
deriving DecidableEq, Repr

/-- LEDC interrupt type. -/
inductive LedcIntr where
  | LEDC_INTR_DISABLE
  | LEDC_INTR_FADE_END
deriving DecidableEq, Repr

/-- ESP-IDF `ledc_timer_config_t`, the fields the driver sets. -/
structure ledc_timer_config_t where
  speed_mode : LedcMode
  duty_resolution : Nat
  timer_num : Nat
  freq_hz : Nat
  clk_cfg : LedcClkCfg
deriving DecidableEq, Repr

/-- ESP-IDF `ledc_channel_config_t`, the fields the driver sets. -/
structure ledc_channel_config_t where
  gpio_num : Int
  speed_mode : LedcMode
  channel : Nat
  intr_type : LedcIntr
  timer_sel : Nat
  duty : Nat
  hpoint : Nat
deriving DecidableEq, Repr

/-- One call into the Arduino / ESP-IDF API, with the arguments the driver
passes.  `spi_transferBytes none n` is `transferBytes(nullptr, out, n)`. -/
inductive HalCall where
  | ledc_timer_config (cfg : ledc_timer_config_t)
  | ledc_channel_config (cfg : ledc_channel_config_t)
  | delay (ms : Nat)
  | pinMode (pin : Int) (mode : PinMode)
  | digitalWrite (pin : Int) (val : Level)
  | digitalRead (pin : Int)
  | spi_new (bus : SpiBus)
  | spi_begin (sck miso mosi ss : Int)
  | spi_beginTransaction (settings : SPISettings)
  | spi_transferBytes (data : Option (List Nat)) (size : Nat)
  | spi_endTransaction
deriving DecidableEq, Repr

/-- The hardware as the driver sees it: the level driven on every pin by the
last `digitalWrite`, and the log of all API calls made so far. -/
structure World where
  level : Int → Level
  log : List HalCall

/-- Effect of one API call on the hardware: the call is logged, and a
`digitalWrite` sets the level driven on its pin. -/
def World.exec (w : World) (c : HalCall) : World :=
  { level :=
      match c with
      | .digitalWrite pin val => fun p => if p = pin then val else w.level p
      | _ => w.level
    log := w.log ++ [c] }

/-- What the hardware answers during one driver call. -/
structure Env where
  /-- the level `digitalRead(pin)` returns -/
  digitalRead : Int → Level
  /-- the `k`-th byte clocked in during a `transferBytes` -/
  miso : Nat → Nat
  /-- the `k`-th byte the bus library clocks out when `transferBytes` is given
  a null transmit buffer; the library is not part of the repository -/
  nullTx : Nat → Nat
  /-- the `esp_err_t` returned by `ledc_timer_config` -/
  ledc_timer_config : ledc_timer_config_t → Int
  /-- the `esp_err_t` returned by `ledc_channel_config` -/
  ledc_channel_config : ledc_channel_config_t → Int
  /-- whether the bus bring-up `spi->begin(...)` succeeded (it returns `bool`
  in recent Arduino cores and nothing in older ones) -/
  spi_begin : Bool

/-- ESP-IDF status `ESP_OK`. -/
def ESP_OK : Int := 0

/-- ESP-IDF status `ESP_FAIL`. -/
def ESP_FAIL : Int := -1

/-- The bytes put on the transmit line by `transferBytes(data, out, size)`:
those of `data`, or, for a null `data`, those the bus library chooses. -/
def txBytes (data : Option (List Nat)) (size : Nat) (env : Env) : List Nat :=
  match data with
  | some d => (List.range size).map (fun k => d.getD k 0 % 256)
  | none => (List.range size).map (fun k => env.nullTx k % 256)

/-! ## Driver data -/

/-- Undefined behaviour of the C++ code made explicit. -/
inductive Fault where
  | nullDeref
  | outOfBounds
deriving DecidableEq, Repr

/-- Source `struct ADS131Data` with its member `int32_t ch[ADS131_NUM_CHANNELS]`. -/
structure ADS131Data where
  ch : List Int
deriving DecidableEq, Repr

/-- Arduino `SPIClass` object created by `new SPIClass(bus)`. -/
structure SPIClass where
  bus : SpiBus
deriving DecidableEq, Repr

/-- The private members of `class ADS131M08`; `_spi = none` is the null
pointer. -/
structure ADS131M08 where
  _pin_clk : Int
  _pin_cs : Int
  _pin_drdy : Int
  _pin_mosi : Int
  _pin_miso : Int
  _pin_sclk : Int
  _spi : Option SPIClass
  _rxBuf : List Nat
deriving DecidableEq, Repr

/-- The constructor: pins recorded, `_spi(nullptr)`; `_rxBuf` is not
initialised, its content `rxBuf0` is whatever the memory holds. -/
def ADS131M08.ctor (clk_pin cs_pin drdy_pin mosi_pin miso_pin sclk_pin : Int)
    (rxBuf0 : List Nat) : ADS131M08 :=
  { _pin_clk := clk_pin, _pin_cs := cs_pin, _pin_drdy := drdy_pin,
    _pin_mosi := mosi_pin, _pin_miso := miso_pin, _pin_sclk := sclk_pin,
    _spi := none, _rxBuf := rxBuf0 }

/-! ## Sign extension and frame decoding -/

/-- Conversion `(int32_t)x` of a `uint32_t`. -/
def toInt32 (x : Nat) : Int :=
  if x % 2 ^ 32 < 2 ^ 31 then (x % 2 ^ 32 : Nat) else ((x % 2 ^ 32 : Nat) : Int) - 2 ^ 32

/-- Source `ADS131M08::_signExtend24`. -/
def _signExtend24 (raw : Nat) : Int :=
  if raw &&& 0x800000 ≠ 0 then
    toInt32 (raw ||| 0xFF000000)
  else
    toInt32 raw

/-- The `uint32_t` assembled from three buffer bytes in `readData`:
`((uint32_t)b0 << 16) | ((uint32_t)b1 << 8) | b2`. -/
def assembleRaw (b0 b1 b2 : Nat) : Nat :=
  ((b0 <<< 16) % 2 ^ 32) ||| ((b1 <<< 8) % 2 ^ 32) ||| b2

/-- Checked read `buf[k]`. -/
def readByte (buf : List Nat) (k : Nat) : Except Fault Nat :=
  match buf[k]? with
  | some b => .ok b
  | none => .error .outOfBounds

/-- Checked write `data.ch[i] = v`. -/
def writeCh (data : ADS131Data) (i : Nat) (v : Int) : Except Fault ADS131Data :=
  if i < data.ch.length then .ok { ch := data.ch.set i v } else .error .outOfBounds

/-- Body of the parse loop of `readData` for one value of `i`. -/
def parseBody (rxBuf : List Nat) (i : Nat) (data : ADS131Data) : Except Fault ADS131Data :=
  let base := 3 + (i * 3)
  match readByte rxBuf base with
  | .error e => .error e
  | .ok b0 =>
    match readByte rxBuf (base + 1) with
    | .error e => .error e
    | .ok b1 =>
      match readByte rxBuf (base + 2) with
      | .error e => .error e
      | .ok b2 =>
        let raw := assembleRaw b0 b1 b2
        writeCh data i (_signExtend24 raw)

/-- The loop `for (int i = ...; i < ADS131_NUM_CHANNELS; i++)` of `readData`,
entered with loop variable `i`; `iters` counts the iterations done. -/
def parseLoop (rxBuf : List Nat) (i : Nat) (data : ADS131Data) (iters : Nat) :
    Except Fault (ADS131Data × Nat) :=
  if i < ADS131_NUM_CHANNELS then
    match parseBody rxBuf i data with
    | .error e => .error e
    | .ok data1 => parseLoop rxBuf (i + 1) data1 (iters + 1)
  else
    .ok (data, iters)
termination_by ADS131_NUM_CHANNELS - i
decreasing_by
  simp_wf
  omega

/-- The "Parse Response" part of `readData`: the loop started at `i = 0`. -/
def parseResponse (rxBuf : List Nat) (data : ADS131Data) : Except Fault (ADS131Data × Nat) :=
  parseLoop rxBuf 0 data 0

/-! ## Hardware access and the public operations -/

/-- Arduino `delay(ms)`. -/
def delay (ms : Nat) (w : World) : World :=
  w.exec (.delay ms)

/-- Arduino `pinMode(pin, mode)`. -/
def pinMode (pin : Int) (mode : PinMode) (w : World) : World :=
  w.exec (.pinMode pin mode)

/-- Arduino `digitalWrite(pin, val)`. -/
def digitalWrite (pin : Int) (val : Level) (w : World) : World :=
  w.exec (.digitalWrite pin val)

/-- Arduino `digitalRead(pin)`: the level comes from the environment. -/
def digitalRead (pin : Int) (env : Env) (w : World) : Level × World :=
  (env.digitalRead pin, w.exec (.digitalRead pin))

/-- ESP-IDF `ledc_timer_config(&cfg)`, returning its `esp_err_t`. -/
def ledc_timer_config (cfg : ledc_timer_config_t) (env : Env) (w : World) : Int × World :=
  (env.ledc_timer_config cfg, w.exec (.ledc_timer_config cfg))

/-- ESP-IDF `ledc_channel_config(&cfg)`, returning its `esp_err_t`. -/
def ledc_channel_config (cfg : ledc_channel_config_t) (env : Env) (w : World) : Int × World :=
  (env.ledc_channel_config cfg, w.exec (.ledc_channel_config cfg))

/-- Allocation `new SPIClass(bus)`. -/
def SPIClass.new (bus : SpiBus) (w : World) : SPIClass × World :=
  ({ bus := bus }, w.exec (.spi_new bus))

/-- Arduino `spi->begin(sck, miso, mosi, ss)`, returning its status; it does
not go through `digitalWrite`, so the level driven on a pin is left as it is. -/
def SPIClass.begin (_spi : SPIClass) (sck miso mosi ss : Int) (env : Env) (w : World) :
    Bool × World :=
  (env.spi_begin, w.exec (.spi_begin sck miso mosi ss))

/-- Arduino `spi->beginTransaction(settings)`. -/
def SPIClass.beginTransaction (_spi : SPIClass) (settings : SPISettings) (w : World) : World :=
  w.exec (.spi_beginTransaction settings)

/-- Arduino `spi->transferBytes(data, out, size)`: `size` bytes are exchanged and the
received ones are stored in `out[0 .. size)`; storing past the end of `out` is
a fault.  Returned: the new content of `out`, the bytes that went out on the
transmit line, and the hardware. -/
def SPIClass.transferBytes (_spi : SPIClass) (data : Option (List Nat)) (out : List Nat)
    (size : Nat) (env : Env) (w : World) : Except Fault (List Nat × List Nat × World) :=
  if out.length < size then
    .error .outOfBounds
  else
    .ok ((List.range size).map (fun k => env.miso k % 256) ++ out.drop size,
         txBytes data size env,
         w.exec (.spi_transferBytes data size))

/-- Arduino `spi->endTransaction()`. -/
def SPIClass.endTransaction (_spi : SPIClass) (w : World) : World :=
  w.exec .spi_endTransaction

/-- Source `ADS131M08::_startClock`: both configuration calls are made as statements,
the `esp_err_t` they return is dropped. -/
def ADS131M08._startClock (self : ADS131M08) (env : Env) (w : World) : World :=
  let ledc_timer : ledc_timer_config_t :=
    { speed_mode := .LEDC_LOW_SPEED_MODE
      duty_resolution := 2
      timer_num := 0
      freq_hz := 8000000
      clk_cfg := .LEDC_AUTO_CLK }
  let (_, w1) := ledc_timer_config ledc_timer env w
  let ledc_channel : ledc_channel_config_t :=
    { gpio_num := self._pin_clk
      speed_mode := .LEDC_LOW_SPEED_MODE
      channel := 0
      intr_type := .LEDC_INTR_DISABLE
      timer_sel := 0
      duty := 2
      hpoint := 0 }
  let (_, w2) := ledc_channel_config ledc_channel env w1
  w2

/-- Source `void ADS131M08::begin()`: nothing is returned, and the status of
`_spi->begin(...)` is dropped like those of the clock configuration. -/
def ADS131M08.begin (self : ADS131M08) (env : Env) (w : World) : ADS131M08 × World :=
  let w1 := self._startClock env w
  let w2 := delay 100 w1
  let w3 := pinMode self._pin_cs .OUTPUT w2
  let w4 := digitalWrite self._pin_cs .HIGH w3
  let w5 := pinMode self._pin_drdy .INPUT w4
  let (spi, w6) := SPIClass.new .FSPI w5
  let self1 := { self with _spi := some spi }
  let (_, w7) := spi.begin self._pin_sclk self._pin_miso self._pin_mosi self._pin_cs env w6
  let w8 := delay 100 w7
  (self1, w8)

/-- Source `bool ADS131M08::isDataReady()`: DRDY goes LOW when new data is ready. -/
def ADS131M08.isDataReady (self : ADS131M08) (env : Env) (w : World) : Bool × World :=
  let (v, w1) := digitalRead self._pin_drdy env w
  (decide (v = Level.LOW), w1)

/-- Outcome of `readData`: the returned `bool`, the driver and the caller's
frame after the call, the hardware after the call, and the bytes that went out
on the transmit line (MOSI) during the call. -/
structure ReadResult where
  ret : Bool
  self : ADS131M08
  data : ADS131Data
  world : World
  mosi : List Nat

/-- Source `bool ADS131M08::readData(ADS131Data &data)`. -/
def ADS131M08.readData (self : ADS131M08) (data : ADS131Data) (env : Env) (w : World) :
    Except Fault ReadResult :=
  let (ready, w1) := self.isDataReady env w
  if !ready then
    .ok { ret := false, self := self, data := data, world := w1, mosi := [] }
  else
    match self._spi with
    | none => .error .nullDeref
    | some spi =>
      let w2 := spi.beginTransaction { clock := 4000000, bitOrder := .MSBFIRST, dataMode := .SPI_MODE1 } w1
      let w3 := digitalWrite self._pin_cs .LOW w2
      match spi.transferBytes none self._rxBuf ADS131_FRAME_BYTES env w3 with
      | .error e => .error e
      | .ok (rxBuf, tx, w4) =>
        let self1 := { self with _rxBuf := rxBuf }
        let w5 := digitalWrite self._pin_cs .HIGH w4
        let w6 := spi.endTransaction w5
        match parseResponse rxBuf data with
        | .error e => .error e
        | .ok (data1, _) =>
          .ok { ret := true, self := self1, data := data1, world := w6, mosi := tx }

/-! ## The specification's reading of a channel code -/

/-- The two's-complement signed reading of a 24-bit number, as the
specification words it: codes with bit 23 set stand for `u - 2^24`. -/
def twosComplement24 (u : Nat) : Int :=
  if u < 2 ^ 23 then (u : Int) else (u : Int) - 2 ^ 24

/-- The 24-bit big-endian number made of three bytes. -/
def bigEndian24 (b0 b1 b2 : Nat) : Nat :=
  (b0 <<< 16) ||| (b1 <<< 8) ||| b2

/-- A well-formed receive buffer: `ADS131_FRAME_BYTES` bytes. -/
def IsFrame (b : List Nat) : Prop :=
  b.length = ADS131_FRAME_BYTES ∧ ∀ x ∈ b, x < 256

instance (b : List Nat) : Decidable (IsFrame b) := by
  unfold IsFrame
  infer_instance

/-! ## Auxiliary definitions used to state the results -/

/-- Value the loop body stores in `data.ch[i]`, read off the buffer without
checks (used to state what the loop computes). -/
def channelCode (b : List Nat) (i : Nat) : Int :=
  _signExtend24 (assembleRaw (b.getD (3 + i * 3) 0) (b.getD (3 + i * 3 + 1) 0)
    (b.getD (3 + i * 3 + 2) 0))

/-- Bytes stored in `_rxBuf` by the 27-byte transfer. -/
def received (env : Env) : List Nat :=
  (List.range ADS131_FRAME_BYTES).map (fun k => env.miso k % 256)

/-- The bus delivers the frame `b` during the transfer. -/
def Delivers (env : Env) (b : List Nat) : Prop :=
  ∀ k, k < ADS131_FRAME_BYTES → env.miso k = b.getD k 0

/-- The API calls of one successful read, after the readiness read. -/
def transactionCalls (cs : Int) : List HalCall :=
  [ .spi_beginTransaction { clock := 4000000, bitOrder := .MSBFIRST, dataMode := .SPI_MODE1 },
    .digitalWrite cs .LOW,
    .spi_transferBytes none ADS131_FRAME_BYTES,
    .digitalWrite cs .HIGH,
    .spi_endTransaction ]

/-- The low 24 bits of a signed code, as three big-endian bytes. -/
def encode24 (c : Int) : Nat × Nat × Nat :=
  let u := (c % 2 ^ 24).toNat
  (u / 65536 % 256, u / 256 % 256, u % 256)

/-- The buffer `b` with the code `c` of channel `i` written big-endian into
bytes `3+3i`, `4+3i`, `5+3i`; the other bytes are kept. -/
def placeCode (b : List Nat) (i : Nat) (c : Int) : List Nat :=
  ((b.set (3 + 3 * i) (encode24 c).1).set (4 + 3 * i) (encode24 c).2.1).set (5 + 3 * i)
    (encode24 c).2.2

/-- The API calls `begin` makes, in order. -/
def beginCalls (self : ADS131M08) : List HalCall :=
  [ .ledc_timer_config
      { speed_mode := .LEDC_LOW_SPEED_MODE, duty_resolution := 2, timer_num := 0,
        freq_hz := 8000000, clk_cfg := .LEDC_AUTO_CLK },
    .ledc_channel_config
      { gpio_num := self._pin_clk, speed_mode := .LEDC_LOW_SPEED_MODE, channel := 0,
        intr_type := .LEDC_INTR_DISABLE, timer_sel := 0, duty := 2, hpoint := 0 },
    .delay 100,
    .pinMode self._pin_cs .OUTPUT,
    .digitalWrite self._pin_cs .HIGH,
    .pinMode self._pin_drdy .INPUT,
    .spi_new .FSPI,
    .spi_begin self._pin_sclk self._pin_miso self._pin_mosi self._pin_cs,
    .delay 100 ]

/-- A sequence of `readData` calls on one driver; every call has its own
environment and its own caller frame.  A fault stops the sequence. -/
def runReads (self : ADS131M08) (w : World) :
    List (Env × ADS131Data) → Except Fault (ADS131M08 × World)
  | [] => .ok (self, w)
  | c :: rest =>
    match self.readData c.2 c.1 w with
    | .error e => .error e
    | .ok r => runReads r.self r.world rest

/-- The API calls of one `readData` on pins `cs`, `drdy` in environment `env`. -/
def readCalls (cs drdy : Int) (env : Env) : List HalCall :=
  .digitalRead drdy ::
    (match env.digitalRead drdy with
     | .LOW => transactionCalls cs
     | .HIGH => [])

/-- The API calls of a sequence of `readData` calls. -/
def issuedCalls (cs drdy : Int) : List (Env × ADS131Data) → List HalCall
  | [] => []
  | c :: rest => readCalls cs drdy c.1 ++ issuedCalls cs drdy rest

/-- The calls `p` already made and the calls `s` still to come lie between the
assert and the deassert of chip-select `cs` inside one read transaction. -/
def InCriticalSection (cs : Int) (p s : List HalCall) : Prop :=
  (∃ pre post,
    p = pre ++ [.spi_beginTransaction
                  { clock := 4000000, bitOrder := .MSBFIRST, dataMode := .SPI_MODE1 },
                .digitalWrite cs .LOW] ∧
    s = [.spi_transferBytes none ADS131_FRAME_BYTES, .digitalWrite cs .HIGH,
         .spi_endTransaction] ++ post) ∨
  (∃ pre post,
    p = pre ++ [.spi_beginTransaction
                  { clock := 4000000, bitOrder := .MSBFIRST, dataMode := .SPI_MODE1 },
                .digitalWrite cs .LOW,
                .spi_transferBytes none ADS131_FRAME_BYTES] ∧
    s = [.digitalWrite cs .HIGH, .spi_endTransaction] ++ post)

/-! ## IEEE-754 binary32 arithmetic and the conversion helpers -/

/-- Auxiliary of `ilog2`, by recursion on `fuel`. -/
def ilog2Aux : Nat → Nat → Nat
  | 0, _ => 0
  | fuel + 1, n => if n < 2 then 0 else ilog2Aux fuel (n / 2) + 1

/-- Position of the leading bit of `n`: the `L` with `2^L ≤ n < 2^(L+1)`
(and 0 for `n = 0`). -/
def ilog2 (n : Nat) : Nat :=
  ilog2Aux n n

/-- A `float`: the finite value `m * 2^e`, or anything else (an infinity, a
NaN, or a result that falls in the subnormal range). -/
inductive F32 where
  | fin (m : Int) (e : Int)
  | other
deriving DecidableEq, Repr

/-- The rational value of a finite `float` (0 for `other`, which
`F32.isFinite` tells apart). -/
def F32.toRat : F32 → ℚ
  | .fin m e => (m : ℚ) * (2 : ℚ) ^ e
  | .other => 0

/-- Whether the `float` is a finite value of the model. -/
def F32.isFinite : F32 → Bool
  | .fin _ _ => true
  | .other => false

/-- Rounding of the positive integer `t` to 24 significant bits, to nearest
with ties to even: the result `(q1, s)` stands for `q1 * 2^s`, where `s` is the
number of low bits dropped. -/
def F32.roundSig (t : Nat) : Nat × Nat :=
  let s := ilog2 t - 23
  let q := t / 2 ^ s
  let r := t % 2 ^ s
  (if 2 * r < 2 ^ s ∨ (2 * r = 2 ^ s ∧ q % 2 = 0) then q else q + 1, s)

/-- The binary32 value nearest to `n * 2^e` (ties to even); `other` when the
leading bit of the result is outside the normal exponent range -126..127. -/
def F32.round (n : Int) (e : Int) : F32 :=
  if n = 0 then .fin 0 0 else
    let q1 := (F32.roundSig n.natAbs).1
    let s := (F32.roundSig n.natAbs).2
    let top : Int := e + s + ilog2 q1
    if -126 ≤ top ∧ top ≤ 127 then .fin (if n < 0 then -(q1 : Int) else q1) (e + s) else .other

/-- The binary32 value nearest to `(num / den) * 2^e`: the quotient is taken
with at least 27 bits and a sticky bit for the remainder, then rounded. -/
def F32.roundRatio (num : Int) (den : Nat) (e : Int) : F32 :=
  if den = 0 then .other else
    let k := 27 + ilog2 den
    let n := num.natAbs * 2 ^ k
    let sticky := if n % den = 0 then 0 else 1
    let t : Int := 2 * (n / den) + sticky
    F32.round (if num < 0 then -t else t) (e - k - 1)

/-- The `float` literal whose decimal value is `num / den`. -/
def F32.lit (num den : Nat) : F32 :=
  F32.roundRatio num den 0

/-- Conversion `(float)c` of an `int32_t`. -/
def F32.ofInt (c : Int) : F32 :=
  F32.round c 0

/-- Product of two `float`s. -/
def F32.mul : F32 → F32 → F32
  | .fin a ea, .fin b eb => F32.round (a * b) (ea + eb)
  | _, _ => .other

/-- Quotient of two `float`s. -/
def F32.div : F32 → F32 → F32
  | .fin a ea, .fin b eb => F32.roundRatio (if b < 0 then -a else a) b.natAbs (ea - eb)
  | _, _ => .other

/-- Macro `ADS131_V_REF`, the literal `1.2f`. -/
def ADS131_V_REF : F32 :=
  F32.lit 12 10

/-- Macro `ADS131_RESOLUTION`, the literal `8388608.0f`. -/
def ADS131_RESOLUTION : F32 :=
  F32.lit 8388608 1

/-- Source `float ADS131M08::rawToVoltage(int32_t raw)`, a static member:
`(float)raw * (ADS131_V_REF / ADS131_RESOLUTION)`. -/
def rawToVoltage (raw : Int) : F32 :=
  F32.mul (F32.ofInt raw) (F32.div ADS131_V_REF ADS131_RESOLUTION)

/-- Source `float ADS131M08::rawToMillivolts(int32_t raw)`, a static member:
`rawToVoltage(raw) * 1000.0f`. -/
def rawToMillivolts (raw : Int) : F32 :=
  F32.mul (rawToVoltage raw) (F32.lit 1000 1)

/-- The voltage of a code as the specification words it, in exact arithmetic:
`c × (V_ref / 2^23)` with `V_ref = 1.2` and `2^23 = 8388608`. -/
def specVoltage (c : Int) : ℚ :=
  (c : ℚ) * ((6 / 5) / 8388608)

/-! ## Concrete data -/

/-- Scenario 2 of the specification: the 27 received bytes. -/
def frame2 : List Nat :=
  [0x00, 0x00, 0x00, 0x00, 0x00, 0x01, 0xFF, 0xFF, 0xFF, 0x7F, 0xFF, 0xFF, 0x80, 0x00, 0x00,
   0x00, 0x80, 0x00, 0xFF, 0x80, 0x00, 0x00, 0x00, 0x80, 0x12, 0x34, 0x56]

/-- Scenario 3 of the specification: status `AA BB CC`, eight times `00 00 10`. -/
def frame3 : List Nat :=
  [0xAA, 0xBB, 0xCC, 0x00, 0x00, 0x10, 0x00, 0x00, 0x10, 0x00, 0x00, 0x10, 0x00, 0x00, 0x10,
   0x00, 0x00, 0x10, 0x00, 0x00, 0x10, 0x00, 0x00, 0x10, 0x00, 0x00, 0x10]

/-- An environment whose pins all read `lvl`, whose bus delivers `b`, whose bus
library sends `0x00` for a null transmit buffer, whose clock configuration
calls report `err`, and whose bus bring-up succeeds exactly when `err` is
`ESP_OK`. -/
def envOf (lvl : Level) (b : List Nat) (err : Int) : Env :=
  { digitalRead := fun _ => lvl
    miso := fun k => b.getD k 0
    nullTx := fun _ => 0x00
    ledc_timer_config := fun _ => err
    ledc_channel_config := fun _ => err
    spi_begin := decide (err = ESP_OK) }

/-- Hardware before anything was configured: no call logged, pins low. -/
def world0 : World :=
  { level := fun _ => .LOW, log := [] }

/-- A driver constructed on pins 1 to 6, not yet initialised. -/
def drv0 : ADS131M08 :=
  ADS131M08.ctor 1 2 3 4 5 6 (List.replicate 27 0)

/-- The driver `drv0` with its bus handle set, as `begin` leaves it. -/
def drv1 : ADS131M08 :=
  { drv0 with _spi := some { bus := .FSPI } }

/-- A caller's frame holding eight zeros. -/
def data0 : ADS131Data :=
  { ch := List.replicate 8 0 }

/-! ## Arithmetic of the decoder -/

theorem and_two_pow_eq (x i : Nat) : x &&& 2 ^ i = if x.testBit i then 2 ^ i else 0 := by
  apply Nat.eq_of_testBit_eq
  intro j
  rw [Nat.testBit_and, Nat.testBit_two_pow]
  by_cases h : i = j
  · subst h
    cases hx : x.testBit i <;> simp [Nat.testBit_two_pow_self]
  · cases hx : x.testBit i <;> simp [h, Nat.testBit_two_pow_of_ne h]

theorem testBit23_of_lt {x : Nat} (hx : x < 2 ^ 24) : x.testBit 23 = decide (2 ^ 23 ≤ x) := by
  by_cases h : 2 ^ 23 ≤ x
  · obtain ⟨y, rfl⟩ := Nat.exists_eq_add_of_le h
    have hy : y < 2 ^ 23 := by omega
    rw [Nat.testBit_two_pow_add_eq, Nat.testBit_lt_two_pow hy]
    simp
  · have : x < 2 ^ 23 := by omega
    rw [Nat.testBit_lt_two_pow this]
    simp only [h, decide_False]

theorem bigEndian24_eq {b0 b1 b2 : Nat} (h1 : b1 < 256) (h2 : b2 < 256) :
    bigEndian24 b0 b1 b2 = b0 * 65536 + b1 * 256 + b2 := by
  unfold bigEndian24
  have e1 : b1 <<< 8 = 2 ^ 8 * b1 := by rw [Nat.shiftLeft_eq, Nat.mul_comm]
  have e0 : b0 <<< 16 = 2 ^ 16 * b0 := by rw [Nat.shiftLeft_eq, Nat.mul_comm]
  have s1 : 2 ^ 16 * b0 ||| 2 ^ 8 * b1 = 2 ^ 16 * b0 + 2 ^ 8 * b1 := by
    rw [← Nat.mul_add_lt_is_or (by omega) b0]
  have s2 : (2 ^ 16 * b0 + 2 ^ 8 * b1) ||| b2 = 2 ^ 16 * b0 + 2 ^ 8 * b1 + b2 := by
    have : 2 ^ 16 * b0 + 2 ^ 8 * b1 = 2 ^ 8 * (2 ^ 8 * b0 + b1) := by ring
    rw [this, ← Nat.mul_add_lt_is_or (by omega) _]
  rw [e0, e1, s1, s2]
  ring

theorem assembleRaw_eq {b0 b1 b2 : Nat} (h0 : b0 < 256) (h1 : b1 < 256) :
    assembleRaw b0 b1 b2 = bigEndian24 b0 b1 b2 := by
  unfold assembleRaw bigEndian24
  have e0 : (b0 <<< 16) % 2 ^ 32 = b0 <<< 16 := by
    apply Nat.mod_eq_of_lt
    rw [Nat.shiftLeft_eq]
    omega
  have e1 : (b1 <<< 8) % 2 ^ 32 = b1 <<< 8 := by
    apply Nat.mod_eq_of_lt
    rw [Nat.shiftLeft_eq]
    omega
  rw [e0, e1]

theorem bigEndian24_lt {b0 b1 b2 : Nat} (h0 : b0 < 256) (h1 : b1 < 256) (h2 : b2 < 256) :
    bigEndian24 b0 b1 b2 < 2 ^ 24 := by
  rw [bigEndian24_eq h1 h2]
  omega

theorem signBit_iff {raw : Nat} (h : raw < 2 ^ 24) : raw &&& 0x800000 ≠ 0 ↔ 2 ^ 23 ≤ raw := by
  have hm : (0x800000 : Nat) = 2 ^ 23 := by norm_num
  rw [hm, and_two_pow_eq, testBit23_of_lt h]
  by_cases hs : 2 ^ 23 ≤ raw <;> simp [hs]

theorem signExtend24_eq {raw : Nat} (h : raw < 2 ^ 24) :
    _signExtend24 raw = twosComplement24 raw := by
  unfold _signExtend24 twosComplement24 toInt32
  by_cases hs : 2 ^ 23 ≤ raw
  · have hor : raw ||| 0xFF000000 = 0xFF000000 + raw := by
      have : (0xFF000000 : Nat) = 2 ^ 24 * 255 := by norm_num
      rw [Nat.or_comm, this, ← Nat.mul_add_lt_is_or h]
    have hlt : ¬ raw < 2 ^ 23 := by omega
    have hmod : (0xFF000000 + raw) % 2 ^ 32 = 0xFF000000 + raw := Nat.mod_eq_of_lt (by omega)
    have hbig : ¬ (0xFF000000 + raw < 2 ^ 31) := by omega
    rw [if_pos ((signBit_iff h).2 hs), if_neg hlt, hor, hmod, if_neg hbig]
    push_cast
    omega
  · have hlt : raw < 2 ^ 23 := by omega
    have hmod : raw % 2 ^ 32 = raw := Nat.mod_eq_of_lt (by omega)
    have hsmall : raw < 2 ^ 31 := by omega
    rw [if_neg (fun hc => hs ((signBit_iff h).1 hc)), if_pos hlt, hmod, if_pos hsmall]

theorem twosComplement24_range {u : Nat} (h : u < 2 ^ 24) :
    -8388608 ≤ twosComplement24 u ∧ twosComplement24 u ≤ 8388607 := by
  unfold twosComplement24
  split <;> constructor <;> omega

/-! ## The parse loop -/

theorem readByte_ok {b : List Nat} {k : Nat} (h : k < b.length) :
    readByte b k = .ok (b.getD k 0) := by
  unfold readByte
  rw [List.getD_eq_getElem?_getD, List.getElem?_eq_getElem h]
  rfl

theorem parseBody_ok {b : List Nat} {i : Nat} {data : ADS131Data}
    (hb : ADS131_FRAME_BYTES ≤ b.length) (hi : i < ADS131_NUM_CHANNELS)
    (hd : i < data.ch.length) :
    parseBody b i data = .ok { ch := data.ch.set i (channelCode b i) } := by
  unfold ADS131_FRAME_BYTES at hb
  unfold ADS131_NUM_CHANNELS at hi
  unfold parseBody
  simp only []
  rw [readByte_ok (by omega), readByte_ok (by omega), readByte_ok (by omega)]
  simp only [writeCh, hd, if_true, channelCode]

theorem parseLoop_ok (b : List Nat) (hb : ADS131_FRAME_BYTES ≤ b.length) :
    ∀ (k i : Nat) (data : ADS131Data) (n : Nat),
      i + k = ADS131_NUM_CHANNELS → data.ch.length = ADS131_NUM_CHANNELS →
      ∃ data1, parseLoop b i data n = .ok (data1, n + k) ∧
        data1.ch.length = ADS131_NUM_CHANNELS ∧
        ∀ j, j < ADS131_NUM_CHANNELS →
          data1.ch[j]? = if i ≤ j then some (channelCode b j) else data.ch[j]? := by
  intro k
  induction k with
  | zero =>
    intro i data n hik hd
    refine ⟨data, ?_, hd, ?_⟩
    · rw [parseLoop]
      have : ¬ i < ADS131_NUM_CHANNELS := by omega
      simp [this]
    · intro j hj
      have : ¬ i ≤ j := by omega
      simp [this]
  | succ k ih =>
    intro i data n hik hd
    have hi : i < ADS131_NUM_CHANNELS := by omega
    have hset : (data.ch.set i (channelCode b i)).length = ADS131_NUM_CHANNELS := by
      rw [List.length_set]
      exact hd
    obtain ⟨data1, h1, h2, h3⟩ :=
      ih (i + 1) { ch := data.ch.set i (channelCode b i) } (n + 1) (by omega) hset
    refine ⟨data1, ?_, h2, ?_⟩
    · rw [parseLoop, if_pos hi, parseBody_ok hb hi (by omega)]
      simp only []
      rw [h1]
      congr 2
      omega
    · intro j hj
      rw [h3 j hj]
      by_cases hij : i + 1 ≤ j
      · have : i ≤ j := by omega
        simp [hij, this]
      · by_cases he : i = j
        · subst he
          have hlt : i < data.ch.length := by omega
          simp [hlt]
        · have : ¬ i ≤ j := by omega
          simp [hij, this, List.getElem?_set_ne he]

/-- Closed form of the decoder on a buffer of at least 27 bytes and a frame
with eight slots. -/
theorem parseResponse_eq {b : List Nat} {data : ADS131Data}
    (hb : ADS131_FRAME_BYTES ≤ b.length) (hd : data.ch.length = ADS131_NUM_CHANNELS) :
    parseResponse b data =
      .ok ({ ch := (List.range ADS131_NUM_CHANNELS).map (channelCode b) }, 8) := by
  obtain ⟨data1, h1, h2, h3⟩ := parseLoop_ok b hb ADS131_NUM_CHANNELS 0 data 0 (by simp) hd
  unfold parseResponse
  rw [h1]
  have hch : data1.ch = (List.range ADS131_NUM_CHANNELS).map (channelCode b) := by
    apply List.ext_getElem?
    intro j
    by_cases hj : j < ADS131_NUM_CHANNELS
    · rw [h3 j hj]
      simp [hj]
    · have e1 : data1.ch[j]? = none := by
        apply List.getElem?_eq_none
        omega
      have e2 : ((List.range ADS131_NUM_CHANNELS).map (channelCode b))[j]? = none := by
        apply List.getElem?_eq_none
        simp
        omega
      rw [e1, e2]
  cases data1
  simp only at hch
  subst hch
  simp [ADS131_NUM_CHANNELS]

theorem channelCode_eq {b : List Nat} (hb : IsFrame b) {i : Nat} (hi : i < ADS131_NUM_CHANNELS) :
    channelCode b i =
      twosComplement24 (bigEndian24 (b.getD (3 + 3 * i) 0) (b.getD (4 + 3 * i) 0)
        (b.getD (5 + 3 * i) 0)) := by
  obtain ⟨hlen, hbyte⟩ := hb
  unfold ADS131_FRAME_BYTES at hlen
  unfold ADS131_NUM_CHANNELS at hi
  have hget : ∀ k, k < 27 → b.getD k 0 < 256 := by
    intro k hk
    rw [List.getD_eq_getElem?_getD, List.getElem?_eq_getElem (by omega)]
    exact hbyte _ (List.getElem_mem _)
  have e0 : 3 + i * 3 = 3 + 3 * i := by omega
  have e1 : 3 + i * 3 + 1 = 4 + 3 * i := by omega
  have e2 : 3 + i * 3 + 2 = 5 + 3 * i := by omega
  unfold channelCode
  rw [e1, e2, e0]
  have h0 := hget (3 + 3 * i) (by omega)
  have h1 := hget (4 + 3 * i) (by omega)
  have h2 := hget (5 + 3 * i) (by omega)
  rw [assembleRaw_eq h0 h1, signExtend24_eq (bigEndian24_lt h0 h1 h2)]

/-! ## The two paths of `readData` -/

theorem received_length (env : Env) : (received env).length = ADS131_FRAME_BYTES := by
  simp [received]

theorem received_eq_of_delivers {env : Env} {b : List Nat} (hb : IsFrame b)
    (hrx : Delivers env b) : received env = b := by
  obtain ⟨hlen, hbyte⟩ := hb
  apply List.ext_getElem
  · rw [received_length, hlen]
  · intro k h1 h2
    have hk : k < ADS131_FRAME_BYTES := by
      rw [received_length] at h1
      exact h1
    simp only [received, List.getElem_map, List.getElem_range]
    rw [hrx k hk, List.getD_eq_getElem?_getD, List.getElem?_eq_getElem h2]
    simp only [Option.getD_some]
    exact Nat.mod_eq_of_lt (hbyte _ (List.getElem_mem _))

theorem readData_not_ready (self : ADS131M08) (data : ADS131Data) (env : Env) (w : World)
    (hdrdy : env.digitalRead self._pin_drdy = Level.HIGH) :
    self.readData data env w =
      .ok { ret := false, self := self, data := data,
            world := w.exec (.digitalRead self._pin_drdy), mosi := [] } := by
  simp [ADS131M08.readData, ADS131M08.isDataReady, digitalRead, hdrdy]

theorem readData_ready (self : ADS131M08) (data : ADS131Data) (env : Env) (w : World)
    (hspi : self._spi ≠ none) (hbuf : self._rxBuf.length = ADS131_FRAME_BYTES)
    (hdata : data.ch.length = ADS131_NUM_CHANNELS)
    (hdrdy : env.digitalRead self._pin_drdy = Level.LOW) :
    self.readData data env w =
      .ok { ret := true
            self := { self with _rxBuf := received env }
            data := { ch := (List.range ADS131_NUM_CHANNELS).map (channelCode (received env)) }
            world := (transactionCalls self._pin_cs).foldl World.exec
                        (w.exec (.digitalRead self._pin_drdy))
            mosi := txBytes none ADS131_FRAME_BYTES env } := by
  obtain ⟨spi, hs⟩ := Option.ne_none_iff_exists'.mp hspi
  have hdrop : List.drop ADS131_FRAME_BYTES self._rxBuf = [] := by
    apply List.drop_eq_nil_of_le
    omega
  have hlt : ¬ self._rxBuf.length < ADS131_FRAME_BYTES := by omega
  have hparse := @parseResponse_eq (received env) data (by rw [received_length]) hdata
  unfold received at hparse
  simp [ADS131M08.readData, ADS131M08.isDataReady, digitalRead, hdrdy, hs,
    SPIClass.transferBytes, hlt, hdrop, hparse, SPIClass.beginTransaction,
    SPIClass.endTransaction, digitalWrite, transactionCalls, received]

theorem delivers_envOf (lvl : Level) (b : List Nat) (err : Int) : Delivers (envOf lvl b err) b := by
  intro k _
  rfl

/-! ## Encoding a code into a buffer -/

theorem encode24_lt (c : Int) :
    (encode24 c).1 < 256 ∧ (encode24 c).2.1 < 256 ∧ (encode24 c).2.2 < 256 := by
  unfold encode24
  dsimp only
  omega

theorem placeCode_isFrame {b : List Nat} (hb : IsFrame b) (i : Nat) (c : Int) :
    IsFrame (placeCode b i c) := by
  obtain ⟨hlen, hbyte⟩ := hb
  refine ⟨by simp [placeCode, hlen], ?_⟩
  have hset : ∀ (l : List Nat) (k v : Nat), (∀ x ∈ l, x < 256) → v < 256 →
      ∀ x ∈ l.set k v, x < 256 := by
    intro l k v hl hv x hx
    rcases List.mem_or_eq_of_mem_set hx with h | h
    · exact hl x h
    · rw [h]
      exact hv
  obtain ⟨e0, e1, e2⟩ := encode24_lt c
  unfold placeCode
  exact hset _ _ _ (hset _ _ _ (hset _ _ _ hbyte e0) e1) e2

theorem twosComplement24_encode {c : Int} (hlo : -8388608 ≤ c) (hhi : c ≤ 8388607) :
    twosComplement24 (bigEndian24 (encode24 c).1 (encode24 c).2.1 (encode24 c).2.2) = c := by
  have hnn : 0 ≤ c % 2 ^ 24 := Int.emod_nonneg _ (by norm_num)
  have hu : (((c % 2 ^ 24).toNat : Nat) : Int) = c % 2 ^ 24 := Int.toNat_of_nonneg hnn
  have hlt : c % 2 ^ 24 < 2 ^ 24 := Int.emod_lt_of_pos _ (by norm_num)
  unfold encode24
  simp only []
  generalize (c % 2 ^ 24).toNat = u at hu
  rw [bigEndian24_eq (by omega) (by omega)]
  have hsum : u / 65536 % 256 * 65536 + u / 256 % 256 * 256 + u % 256 = u := by omega
  rw [hsum]
  unfold twosComplement24
  split <;> omega

/-! ## The calls of `begin` and of a sequence of reads -/

theorem begin_eq (self : ADS131M08) (env : Env) (w : World) :
    self.begin env w =
      ({ self with _spi := some { bus := .FSPI } }, (beginCalls self).foldl World.exec w) := by
  rfl

theorem foldl_exec_log (p : List HalCall) (w : World) :
    (p.foldl World.exec w).log = w.log ++ p := by
  induction p generalizing w with
  | nil => simp
  | cons c p ih =>
    rw [List.foldl_cons, ih]
    simp [World.exec]

theorem readCalls_level (cs drdy : Int) (env : Env) (w : World)
    (hw : w.level cs = Level.HIGH) :
    ((readCalls cs drdy env).foldl World.exec w).level cs = Level.HIGH := by
  unfold readCalls
  cases env.digitalRead drdy <;> simp [transactionCalls, World.exec, hw]

theorem readCalls_split (cs drdy : Int) (env : Env) (w : World)
    (hw : w.level cs = Level.HIGH) (p c : List HalCall)
    (hsplit : readCalls cs drdy env = p ++ c)
    (hlow : (p.foldl World.exec w).level cs = Level.LOW) :
    InCriticalSection cs p c := by
  unfold readCalls at hsplit
  cases hd : env.digitalRead drdy
  · rw [hd] at hsplit
    simp only [transactionCalls] at hsplit
    rcases List.cons_eq_append_iff.mp hsplit with ⟨rfl, rfl⟩ | ⟨p1, rfl, h1⟩
    · simp [hw] at hlow
    rcases List.cons_eq_append_iff.mp h1 with ⟨rfl, rfl⟩ | ⟨p2, rfl, h2⟩
    · simp [World.exec, hw] at hlow
    rcases List.cons_eq_append_iff.mp h2 with ⟨rfl, rfl⟩ | ⟨p3, rfl, h3⟩
    · simp [World.exec, hw] at hlow
    rcases List.cons_eq_append_iff.mp h3 with ⟨rfl, rfl⟩ | ⟨p4, rfl, h4⟩
    · exact Or.inl ⟨[.digitalRead drdy], [], rfl, rfl⟩
    rcases List.cons_eq_append_iff.mp h4 with ⟨rfl, rfl⟩ | ⟨p5, rfl, h5⟩
    · exact Or.inr ⟨[.digitalRead drdy], [], rfl, rfl⟩
    rcases List.cons_eq_append_iff.mp h5 with ⟨rfl, rfl⟩ | ⟨p6, rfl, h6⟩
    · simp [World.exec] at hlow
    obtain ⟨rfl, rfl⟩ := List.nil_eq_append_iff.mp h6
    simp [World.exec] at hlow
  · rw [hd] at hsplit
    simp only at hsplit
    rcases List.cons_eq_append_iff.mp hsplit with ⟨rfl, rfl⟩ | ⟨p1, rfl, h1⟩
    · simp [hw] at hlow
    obtain ⟨rfl, rfl⟩ := List.nil_eq_append_iff.mp h1
    simp [World.exec, hw] at hlow

theorem inCriticalSection_append (cs : Int) (blk p s : List HalCall)
    (h : InCriticalSection cs p s) : InCriticalSection cs (blk ++ p) s := by
  rcases h with ⟨pre, post, rfl, rfl⟩ | ⟨pre, post, rfl, rfl⟩
  · exact Or.inl ⟨blk ++ pre, post, by simp, rfl⟩
  · exact Or.inr ⟨blk ++ pre, post, by simp, rfl⟩

theorem inCriticalSection_post (cs : Int) (p c tl : List HalCall)
    (h : InCriticalSection cs p c) : InCriticalSection cs p (c ++ tl) := by
  rcases h with ⟨pre, post, rfl, rfl⟩ | ⟨pre, post, rfl, rfl⟩
  · exact Or.inl ⟨pre, post ++ tl, rfl, by simp⟩
  · exact Or.inr ⟨pre, post ++ tl, rfl, by simp⟩

theorem issuedCalls_level (cs drdy : Int) (calls : List (Env × ADS131Data)) :
    ∀ w : World, w.level cs = Level.HIGH →
      ((issuedCalls cs drdy calls).foldl World.exec w).level cs = Level.HIGH ∧
      ∀ p s, issuedCalls cs drdy calls = p ++ s →
        (p.foldl World.exec w).level cs = Level.LOW → InCriticalSection cs p s := by
  induction calls with
  | nil =>
    intro w hw
    refine ⟨by simpa [issuedCalls] using hw, ?_⟩
    intro p s hsplit hlow
    simp only [issuedCalls] at hsplit
    obtain ⟨rfl, rfl⟩ := List.nil_eq_append_iff.mp hsplit
    simp [hw] at hlow
  | cons c rest ih =>
    intro w hw
    have hblk := readCalls_level cs drdy c.1 w hw
    obtain ⟨ih1, ih2⟩ := ih _ hblk
    refine ⟨by simpa [issuedCalls, List.foldl_append] using ih1, ?_⟩
    intro p s hsplit hlow
    simp only [issuedCalls] at hsplit
    rcases List.append_eq_append_iff.mp hsplit with ⟨a, rfl, hrest⟩ | ⟨c1, hblock, rfl⟩
    · rw [List.foldl_append] at hlow
      exact inCriticalSection_append cs _ _ _ (ih2 a s hrest hlow)
    · exact inCriticalSection_post cs _ _ _
        (readCalls_split cs drdy c.1 w hw p c1 hblock hlow)

theorem readData_world (self : ADS131M08) (data : ADS131Data) (env : Env) (w : World)
    (hspi : self._spi ≠ none) (hbuf : self._rxBuf.length = ADS131_FRAME_BYTES)
    (hdata : data.ch.length = ADS131_NUM_CHANNELS) :
    ∃ r, self.readData data env w = .ok r ∧
      r.world = (readCalls self._pin_cs self._pin_drdy env).foldl World.exec w ∧
      r.self._spi = self._spi ∧ r.self._rxBuf.length = ADS131_FRAME_BYTES ∧
      r.self._pin_cs = self._pin_cs ∧ r.self._pin_drdy = self._pin_drdy := by
  cases hd : env.digitalRead self._pin_drdy
  · refine ⟨_, readData_ready self data env w hspi hbuf hdata hd, ?_, rfl, ?_, rfl, rfl⟩
    · simp [readCalls, hd]
    · exact received_length env
  · refine ⟨_, readData_not_ready self data env w hd, ?_, rfl, hbuf, rfl, rfl⟩
    simp [readCalls, hd]

theorem runReads_ok (calls : List (Env × ADS131Data)) :
    ∀ (self : ADS131M08) (w : World), self._spi ≠ none →
      self._rxBuf.length = ADS131_FRAME_BYTES →
      (∀ c ∈ calls, c.2.ch.length = ADS131_NUM_CHANNELS) →
      ∃ self2, runReads self w calls =
        .ok (self2, (issuedCalls self._pin_cs self._pin_drdy calls).foldl World.exec w) := by
  induction calls with
  | nil =>
    intro self w _ _ _
    exact ⟨self, rfl⟩
  | cons c rest ih =>
    intro self w hspi hbuf hdata
    obtain ⟨r, hr, hw, h1, h2, h3, h4⟩ :=
      readData_world self c.2 c.1 w hspi hbuf (hdata c (List.mem_cons_self _ _))
    obtain ⟨self2, h⟩ := ih r.self r.world (by rw [h1]; exact hspi) h2
      (fun x hx => hdata x (List.mem_cons_of_mem _ hx))
    refine ⟨self2, ?_⟩
    rw [h3, h4, hw] at h
    simp only [runReads, hr, issuedCalls, List.foldl_append]
    rw [← h, hw]

/-! ## Rounding to binary32 -/

theorem ilog2Aux_eq : ∀ fuel n, n ≤ fuel → ilog2Aux fuel n = Nat.log2 n := by
  intro fuel
  induction fuel with
  | zero =>
    intro n hn
    have : n = 0 := by omega
    subst this
    rw [Nat.log2]
    simp [ilog2Aux]
  | succ fuel ih =>
    intro n hn
    rw [Nat.log2]
    by_cases h : n < 2
    · have h2 : ¬ n ≥ 2 := by omega
      simp [ilog2Aux, h, h2]
    · have h2 : n ≥ 2 := by omega
      simp only [ilog2Aux, h, h2, if_true, if_false]
      rw [ih (n / 2) (by omega)]

theorem ilog2_bounds {n : Nat} (h : n ≠ 0) : 2 ^ ilog2 n ≤ n ∧ n < 2 ^ (ilog2 n + 1) := by
  unfold ilog2
  rw [ilog2Aux_eq n n (Nat.le_refl n)]
  exact ⟨Nat.log2_self_le h, Nat.lt_log2_self⟩

theorem le_ilog2 {n a : Nat} (h : n ≠ 0) (ha : 2 ^ a ≤ n) : a ≤ ilog2 n := by
  by_contra hc
  have h1 : ilog2 n + 1 ≤ a := by omega
  have h2 := (ilog2_bounds h).2
  have h3 : 2 ^ (ilog2 n + 1) ≤ 2 ^ a := Nat.pow_le_pow_right (by norm_num) h1
  omega

theorem ilog2_lt {n b : Nat} (h : n ≠ 0) (hb : n < 2 ^ b) : ilog2 n < b := by
  by_contra hc
  have h1 : b ≤ ilog2 n := by omega
  have h2 := (ilog2_bounds h).1
  have h3 : 2 ^ b ≤ 2 ^ ilog2 n := Nat.pow_le_pow_right (by norm_num) h1
  omega

theorem roundSig_spec {t : Nat} (ht : t ≠ 0) :
    (F32.roundSig t).1 ≠ 0 ∧
    2 ^ 24 * (F32.roundSig t).1 * 2 ^ (F32.roundSig t).2 ≤ 2 ^ 24 * t + t ∧
    2 ^ 24 * t ≤ 2 ^ 24 * (F32.roundSig t).1 * 2 ^ (F32.roundSig t).2 + t ∧
    ilog2 t ≤ (F32.roundSig t).2 + ilog2 (F32.roundSig t).1 ∧
    (F32.roundSig t).2 + ilog2 (F32.roundSig t).1 ≤ ilog2 t + 1 := by
  obtain ⟨hL1, hL2⟩ := ilog2_bounds ht
  unfold F32.roundSig
  simp only []
  generalize hs : ilog2 t - 23 = s
  generalize hq : t / 2 ^ s = q
  generalize hr : t % 2 ^ s = r
  generalize hq1 : (if 2 * r < 2 ^ s ∨ (2 * r = 2 ^ s ∧ q % 2 = 0) then q else q + 1) = q1
  have hP : 0 < 2 ^ s := Nat.two_pow_pos _
  have hdm : 2 ^ s * q + r = t := by rw [← hq, ← hr]; exact Nat.div_add_mod t (2 ^ s)
  have hrlt : r < 2 ^ s := by rw [← hr]; exact Nat.mod_lt _ hP
  have hsL : s ≤ ilog2 t := by omega
  have hpow : 2 ^ (ilog2 t - s) * 2 ^ s = 2 ^ ilog2 t := by
    rw [← Nat.pow_add]; congr 1; omega
  have hqlo : 2 ^ (ilog2 t - s) ≤ q := by
    rw [← hq, Nat.le_div_iff_mul_le hP, hpow]; exact hL1
  have hqhi : q < 2 ^ (ilog2 t - s + 1) := by
    rw [← hq, Nat.div_lt_iff_lt_mul hP]
    have : 2 ^ (ilog2 t - s + 1) * 2 ^ s = 2 ^ (ilog2 t + 1) := by
      rw [← Nat.pow_add]; congr 1; omega
    rw [this]; exact hL2
  have hq1cases : q1 = q ∧ 2 * r ≤ 2 ^ s ∨ q1 = q + 1 ∧ 2 ^ s ≤ 2 * r := by
    rw [← hq1]
    split
    · rename_i hc
      left
      refine ⟨rfl, ?_⟩
      rcases hc with hc | hc <;> omega
    · rename_i hc
      right
      refine ⟨rfl, ?_⟩
      by_contra hlt
      exact hc (Or.inl (by omega))
  have hq1pos : q1 ≠ 0 := by
    have : 0 < 2 ^ (ilog2 t - s) := Nat.two_pow_pos _
    rcases hq1cases with ⟨h, _⟩ | ⟨h, _⟩ <;> omega
  have hbig : s = 0 ∨ 2 ^ 23 * 2 ^ s ≤ t := by
    by_cases h0 : s = 0
    · exact Or.inl h0
    · right
      have : 23 + s = ilog2 t := by omega
      rw [← Nat.pow_add, this]; exact hL1
  have hr0 : s = 0 → r = 0 := by
    intro h0
    rw [h0] at hrlt
    simpa using hrlt
  have hmul : 2 ^ 24 * q1 * 2 ^ s = 2 ^ 24 * (q1 * 2 ^ s) := by ring
  have hq1P : q1 * 2 ^ s = 2 ^ s * q ∧ 2 * r ≤ 2 ^ s ∨
      q1 * 2 ^ s = 2 ^ s * q + 2 ^ s ∧ 2 ^ s ≤ 2 * r := by
    rcases hq1cases with ⟨h, h'⟩ | ⟨h, h'⟩
    · left; exact ⟨by rw [h]; ring, h'⟩
    · right; exact ⟨by rw [h]; ring, h'⟩
  refine ⟨hq1pos, ?_, ?_, ?_, ?_⟩
  · rw [hmul]
    rcases hbig with h0 | hb
    · have := hr0 h0
      rcases hq1P with ⟨h, h'⟩ | ⟨h, h'⟩
      · omega
      · rw [h0] at h'; simp at h'; omega
    · rcases hq1P with ⟨h, h'⟩ | ⟨h, h'⟩ <;> omega
  · rw [hmul]
    rcases hbig with h0 | hb
    · have := hr0 h0
      rcases hq1P with ⟨h, h'⟩ | ⟨h, h'⟩
      · omega
      · rw [h0] at h'; simp at h'; omega
    · rcases hq1P with ⟨h, h'⟩ | ⟨h, h'⟩ <;> omega
  · have : ilog2 t - s ≤ ilog2 q1 := by
      apply le_ilog2 hq1pos
      rcases hq1cases with ⟨h, _⟩ | ⟨h, _⟩ <;> omega
    omega
  · have : ilog2 q1 < ilog2 t - s + 2 := by
      apply ilog2_lt hq1pos
      have : 2 ^ (ilog2 t - s + 2) = 2 * 2 ^ (ilog2 t - s + 1) := by
        rw [Nat.pow_succ]; ring
      rcases hq1cases with ⟨h, _⟩ | ⟨h, _⟩ <;> omega
    omega

theorem F32.round_zero (e : Int) : F32.round 0 e = .fin 0 0 := by
  simp [F32.round]

theorem F32.round_spec (n e : Int) (hn : n ≠ 0)
    (hlo : (2 : ℚ) ^ (-126 : ℤ) ≤ |(n : ℚ)| * 2 ^ e) (hhi : |(n : ℚ)| * 2 ^ e < 2 ^ (127 : ℤ)) :
    ∃ m e1, F32.round n e = .fin m e1 ∧
      |(m : ℚ) * 2 ^ e1 - (n : ℚ) * 2 ^ e| ≤ |(n : ℚ) * 2 ^ e| / 2 ^ 24 := by
  have ht : n.natAbs ≠ 0 := Int.natAbs_ne_zero.mpr hn
  obtain ⟨_, hA1, hA2, hB1, hB2⟩ := roundSig_spec ht
  obtain ⟨hL1, hL2⟩ := ilog2_bounds ht
  obtain ⟨q1, hq⟩ : ∃ q1, (F32.roundSig n.natAbs).1 = q1 := ⟨_, rfl⟩
  obtain ⟨s, hs⟩ : ∃ s, (F32.roundSig n.natAbs).2 = s := ⟨_, rfl⟩
  obtain ⟨t, htd⟩ : ∃ t, n.natAbs = t := ⟨_, rfl⟩
  rw [hq, hs, htd] at hA1 hA2 hB1 hB2
  rw [htd] at hL1 hL2
  have habs : |(n : ℚ)| = (t : ℚ) := by
    rw [← htd, Nat.cast_natAbs, Int.cast_abs]
  have h2 : (1 : ℚ) < 2 := by norm_num
  have hpe : (0 : ℚ) < 2 ^ e := zpow_pos (by norm_num) e
  rw [habs] at hlo hhi
  have hlow : (-126 : ℤ) ≤ e + ilog2 t := by
    have h3 : (t : ℚ) < 2 ^ (ilog2 t + 1) := by exact_mod_cast hL2
    have h4 : (t : ℚ) * 2 ^ e < 2 ^ (((ilog2 t + 1 : ℕ) : ℤ) + e) := by
      rw [zpow_add₀ (by norm_num), zpow_natCast]
      exact mul_lt_mul_of_pos_right h3 hpe
    have h5 := lt_of_le_of_lt hlo h4
    rw [zpow_lt_zpow_iff_right₀ h2] at h5
    push_cast at h5
    omega
  have hhigh : e + ilog2 t + 1 ≤ (127 : ℤ) := by
    have h3 : (2 : ℚ) ^ (ilog2 t) ≤ (t : ℚ) := by exact_mod_cast hL1
    have h4 : (2 : ℚ) ^ (((ilog2 t : ℕ) : ℤ) + e) ≤ (t : ℚ) * 2 ^ e := by
      rw [zpow_add₀ (by norm_num), zpow_natCast]
      exact mul_le_mul_of_nonneg_right h3 (le_of_lt hpe)
    have h5 := lt_of_le_of_lt h4 hhi
    rw [zpow_lt_zpow_iff_right₀ h2] at h5
    omega
  have hround : F32.round n e = .fin (if n < 0 then -(q1 : Int) else q1) (e + s) := by
    unfold F32.round
    simp only [hn, if_false]
    rw [hq, hs]
    have : (-126 : ℤ) ≤ e + (s : ℤ) + (ilog2 q1 : ℤ) ∧ e + (s : ℤ) + (ilog2 q1 : ℤ) ≤ 127 := by
      constructor <;> omega
    simp only [this, and_self, if_true]
  refine ⟨_, _, hround, ?_⟩
  have a1 : (2 : ℚ) ^ 24 * q1 * 2 ^ s ≤ 2 ^ 24 * t + t := by exact_mod_cast hA1
  have a2 : (2 : ℚ) ^ 24 * t ≤ 2 ^ 24 * q1 * 2 ^ s + t := by exact_mod_cast hA2
  have hQ : |(q1 : ℚ) * 2 ^ s - t| ≤ (t : ℚ) / 2 ^ 24 := by
    rw [abs_le]
    norm_num at a1 a2 ⊢
    constructor <;> linarith
  have hzp : (2 : ℚ) ^ (e + (s : ℤ)) = 2 ^ s * 2 ^ e := by
    rw [zpow_add₀ (by norm_num), zpow_natCast, mul_comm]
  have htn : (0 : ℚ) ≤ t := Nat.cast_nonneg t
  have hfin : |(q1 : ℚ) * 2 ^ s - t| * 2 ^ e ≤ (t : ℚ) * 2 ^ e / 2 ^ 24 := by
    have := mul_le_mul_of_nonneg_right hQ (le_of_lt hpe)
    calc |(q1 : ℚ) * 2 ^ s - t| * 2 ^ e ≤ (t : ℚ) / 2 ^ 24 * 2 ^ e := this
      _ = (t : ℚ) * 2 ^ e / 2 ^ 24 := by ring
  rw [abs_mul, habs, abs_of_pos hpe, hzp]
  by_cases hneg : n < 0
  · have hnt : (n : ℚ) = -(t : ℚ) := by
      have : n = -(t : ℤ) := by rw [← htd]; omega
      rw [this]; push_cast; ring
    simp only [hneg, if_true]
    rw [hnt]
    have : ((-(q1 : ℤ) : ℤ) : ℚ) * (2 ^ s * 2 ^ e) - -(t : ℚ) * 2 ^ e =
        -(((q1 : ℚ) * 2 ^ s - t) * 2 ^ e) := by push_cast; ring
    rw [this, abs_neg, abs_mul, abs_of_pos hpe]
    exact hfin
  · have hnt : (n : ℚ) = (t : ℚ) := by
      have : n = (t : ℤ) := by rw [← htd]; omega
      rw [this]; push_cast; ring
    simp only [hneg, if_false]
    rw [hnt]
    have : (((q1 : ℤ) : ℤ) : ℚ) * (2 ^ s * 2 ^ e) - (t : ℚ) * 2 ^ e =
        ((q1 : ℚ) * 2 ^ s - t) * 2 ^ e := by push_cast; ring
    rw [this, abs_mul, abs_of_pos hpe]
    exact hfin

theorem F32.mul_spec (a ea b eb : Int)
    (h : a * b ≠ 0 → (2 : ℚ) ^ (-126 : ℤ) ≤ |(F32.fin a ea).toRat * (F32.fin b eb).toRat| ∧
      |(F32.fin a ea).toRat * (F32.fin b eb).toRat| < 2 ^ (127 : ℤ)) :
    ∃ m e, F32.mul (.fin a ea) (.fin b eb) = .fin m e ∧
      |(F32.fin m e).toRat - (F32.fin a ea).toRat * (F32.fin b eb).toRat| ≤
        |(F32.fin a ea).toRat * (F32.fin b eb).toRat| / 2 ^ 24 := by
  have hprod : (F32.fin a ea).toRat * (F32.fin b eb).toRat = ((a * b : ℤ) : ℚ) * 2 ^ (ea + eb) := by
    simp only [F32.toRat]
    rw [zpow_add₀ (by norm_num)]
    push_cast
    ring
  rw [hprod] at h ⊢
  by_cases h0 : a * b = 0
  · refine ⟨0, 0, ?_, ?_⟩
    · simp [F32.mul, h0, F32.round_zero]
    · simp [F32.toRat, h0]
  · obtain ⟨hlo, hhi⟩ := h h0
    have hpe : (0 : ℚ) < 2 ^ (ea + eb) := zpow_pos (by norm_num) _
    rw [abs_mul, abs_of_pos hpe] at hlo hhi
    obtain ⟨m, e1, hr, herr⟩ := F32.round_spec (a * b) (ea + eb) h0 hlo hhi
    exact ⟨m, e1, hr, herr⟩

theorem F32.ofInt_spec (c : Int) (hlo : -2147483648 ≤ c) (hhi : c ≤ 2147483647) :
    ∃ m e, F32.ofInt c = .fin m e ∧
      |(F32.fin m e).toRat - (c : ℚ)| ≤ |(c : ℚ)| / 2 ^ 24 := by
  by_cases h0 : c = 0
  · subst h0
    exact ⟨0, 0, F32.round_zero 0, by simp [F32.toRat]⟩
  · have h1 : (1 : ℚ) ≤ |(c : ℚ)| := by
      have : (1 : ℤ) ≤ |c| := Int.one_le_abs h0
      exact_mod_cast this
    have h2 : |(c : ℚ)| ≤ 2147483648 := by
      have : |c| ≤ 2147483648 := abs_le.mpr ⟨by omega, by omega⟩
      exact_mod_cast this
    obtain ⟨m, e1, hr, herr⟩ := F32.round_spec c 0 h0
      (by simp only [zpow_zero, mul_one]; exact le_trans (by norm_num) h1)
      (by simp only [zpow_zero, mul_one]; exact lt_of_le_of_lt h2 (by norm_num))
    refine ⟨m, e1, hr, ?_⟩
    simpa [F32.toRat] using herr

theorem voltsPerCode_eq : F32.div ADS131_V_REF ADS131_RESOLUTION = .fin 10066330 (-46) := by
  decide

theorem milli_eq : F32.lit 1000 1 = .fin 16384000 (-14) := by
  decide

theorem rawToVoltage_spec (c : Int) (hlo : -2147483648 ≤ c) (hhi : c ≤ 2147483647) :
    ∃ m e, rawToVoltage c = .fin m e ∧ (c = 0 → m = 0) ∧
      |(F32.fin m e).toRat - specVoltage c| ≤ |specVoltage c| / 2 ^ 22 := by
  by_cases h0 : c = 0
  · subst h0
    exact ⟨0, 0, by decide, fun _ => rfl, by simp [F32.toRat, specVoltage]⟩
  obtain ⟨ma, ea, ha, herrA⟩ := F32.ofInt_spec c hlo hhi
  have h1 : (1 : ℚ) ≤ |(c : ℚ)| := by
    have : (1 : ℤ) ≤ |c| := Int.one_le_abs h0
    exact_mod_cast this
  have h2 : |(c : ℚ)| ≤ 2147483648 := by
    have : |c| ≤ 2147483648 := abs_le.mpr ⟨by omega, by omega⟩
    exact_mod_cast this
  obtain ⟨A, hA⟩ : ∃ A, (F32.fin ma ea).toRat = A := ⟨_, rfl⟩
  rw [hA] at herrA
  have hK : (F32.fin 10066330 (-46)).toRat = 5033165 / 35184372088832 := by
    norm_num [F32.toRat]
  have hAup : |A| ≤ |(c : ℚ)| + |A - c| := by
    have := abs_sub_abs_le_abs_sub A (c : ℚ)
    linarith
  have hAlo : |(c : ℚ)| ≤ |A| + |A - c| := by
    have := abs_sub_abs_le_abs_sub (c : ℚ) A
    rw [abs_sub_comm] at this
    linarith
  have hAK : |A * (5033165 / 35184372088832)| = |A| * (5033165 / 35184372088832) := by
    rw [abs_mul, abs_of_pos (by norm_num : (0 : ℚ) < 5033165 / 35184372088832)]
  obtain ⟨m, e, hm, herr⟩ := F32.mul_spec ma ea 10066330 (-46) (by
    intro _
    rw [hA, hK, hAK]
    norm_num at herrA ⊢
    constructor <;> linarith)
  rw [hA, hK, hAK] at herr
  refine ⟨m, e, ?_, fun h => absurd h h0, ?_⟩
  · unfold rawToVoltage
    rw [ha, voltsPerCode_eq, hm]
  · obtain ⟨V, hV⟩ : ∃ V, (F32.fin m e).toRat = V := ⟨_, rfl⟩
    rw [hV] at herr ⊢
    have hs : |specVoltage c| = |(c : ℚ)| * ((6 / 5) / 8388608) := by
      unfold specVoltage
      rw [abs_mul, abs_of_pos (by norm_num : (0 : ℚ) < (6 / 5) / 8388608)]
    have t1 : |V - specVoltage c| ≤
        |V - A * (5033165 / 35184372088832)| +
          |A * (5033165 / 35184372088832) - specVoltage c| := abs_sub_le _ _ _
    have t2 : |A * (5033165 / 35184372088832) - specVoltage c| ≤
        |A - c| * (5033165 / 35184372088832) + |(c : ℚ)| * (1 / 175921860444160) := by
      have e1 : A * (5033165 / 35184372088832) - specVoltage c =
          (A - c) * (5033165 / 35184372088832) + (c : ℚ) * (1 / 175921860444160) := by
        unfold specVoltage
        ring
      rw [e1]
      refine le_trans (abs_add _ _) ?_
      rw [abs_mul, abs_mul, abs_of_pos (by norm_num : (0 : ℚ) < 5033165 / 35184372088832),
        abs_of_pos (by norm_num : (0 : ℚ) < 1 / 175921860444160)]
    rw [hs]
    norm_num at herrA herr t1 t2 ⊢
    linarith

theorem rawToMillivolts_spec (c : Int) (hlo : -2147483648 ≤ c) (hhi : c ≤ 2147483647) :
    ∃ m e mv ev, rawToVoltage c = .fin m e ∧ rawToMillivolts c = .fin mv ev ∧
      |(F32.fin mv ev).toRat - (F32.fin m e).toRat * 1000| ≤
        |(F32.fin m e).toRat * 1000| / 2 ^ 24 := by
  obtain ⟨m, e, hv, hz, herr⟩ := rawToVoltage_spec c hlo hhi
  have hM : (F32.fin 16384000 (-14)).toRat = 1000 := by
    norm_num [F32.toRat]
  obtain ⟨mv, ev, hmv, herr2⟩ := F32.mul_spec m e 16384000 (-14) (by
    intro hne
    have h0 : c ≠ 0 := by
      intro hc
      rw [hz hc] at hne
      simp at hne
    have h1 : (1 : ℚ) ≤ |(c : ℚ)| := by
      have : (1 : ℤ) ≤ |c| := Int.one_le_abs h0
      exact_mod_cast this
    have h2 : |(c : ℚ)| ≤ 2147483648 := by
      have : |c| ≤ 2147483648 := abs_le.mpr ⟨by omega, by omega⟩
      exact_mod_cast this
    obtain ⟨V, hV⟩ : ∃ V, (F32.fin m e).toRat = V := ⟨_, rfl⟩
    rw [hV] at herr
    have hs : |specVoltage c| = |(c : ℚ)| * ((6 / 5) / 8388608) := by
      unfold specVoltage
      rw [abs_mul, abs_of_pos (by norm_num : (0 : ℚ) < (6 / 5) / 8388608)]
    have hVup : |V| ≤ |specVoltage c| + |V - specVoltage c| := by
      have := abs_sub_abs_le_abs_sub V (specVoltage c)
      linarith
    have hVlo : |specVoltage c| ≤ |V| + |V - specVoltage c| := by
      have := abs_sub_abs_le_abs_sub (specVoltage c) V
      rw [abs_sub_comm] at this
      linarith
    rw [hV, hM, abs_mul, abs_of_pos (by norm_num : (0 : ℚ) < 1000)]
    rw [hs] at herr hVup hVlo
    norm_num at herr hVup hVlo ⊢
    constructor <;> linarith)
  rw [hM] at herr2
  refine ⟨m, e, mv, ev, hv, ?_, herr2⟩
  unfold rawToMillivolts
  rw [hv, milli_eq, hmv]

/-! ## C1: what `readData` stores in each channel -/

/-- C1. For every 27-byte receive buffer `b` delivered by the bus to an
initialised driver whose data-ready input reads low, `readData` returns true,
`_rxBuf` holds `b`, and every channel `i` in 0..7 holds the two's-complement
signed reading of the 24-bit big-endian number made of bytes `3+3i`, `4+3i`,
`5+3i` of `b`; a second buffer that agrees with `b` on these three bytes gives
the same channel `i`, whatever its other bytes (status bytes included); and the
scenario frame `frame2` decodes to
`[1, -1, 8388607, -8388608, 32768, -32768, 128, 1193046]`. -/
theorem readData_channel_value
    (self : ADS131M08) (data : ADS131Data) (env : Env) (w : World) (b : List Nat)
    (hspi : self._spi ≠ none) (hbuf : self._rxBuf.length = ADS131_FRAME_BYTES)
    (hdata : data.ch.length = ADS131_NUM_CHANNELS)
    (hdrdy : env.digitalRead self._pin_drdy = Level.LOW)
    (hb : IsFrame b) (hrx : Delivers env b) :
    ∃ r, self.readData data env w = .ok r ∧ r.ret = true ∧ r.self._rxBuf = b ∧
      (∀ i, i < ADS131_NUM_CHANNELS →
        r.data.ch[i]? = some (twosComplement24
          (bigEndian24 (b.getD (3 + 3 * i) 0) (b.getD (4 + 3 * i) 0) (b.getD (5 + 3 * i) 0)))) ∧
      (∀ (env2 : Env) (b2 : List Nat) (i : Nat),
        env2.digitalRead self._pin_drdy = Level.LOW → IsFrame b2 → Delivers env2 b2 →
        i < ADS131_NUM_CHANNELS →
        b2.getD (3 + 3 * i) 0 = b.getD (3 + 3 * i) 0 →
        b2.getD (4 + 3 * i) 0 = b.getD (4 + 3 * i) 0 →
        b2.getD (5 + 3 * i) 0 = b.getD (5 + 3 * i) 0 →
        ∃ r2, self.readData data env2 w = .ok r2 ∧ r2.data.ch[i]? = r.data.ch[i]?) ∧
      (b = frame2 →
        r.data.ch = [1, -1, 8388607, -8388608, 32768, -32768, 128, 1193046]) := by
  have hch : ∀ (e : Env) (c : List Nat), IsFrame c → Delivers e c →
      ∀ i, i < ADS131_NUM_CHANNELS →
        ((List.range ADS131_NUM_CHANNELS).map (channelCode (received e)))[i]? =
          some (twosComplement24
            (bigEndian24 (c.getD (3 + 3 * i) 0) (c.getD (4 + 3 * i) 0) (c.getD (5 + 3 * i) 0))) := by
    intro e c hc hd i hi
    rw [received_eq_of_delivers hc hd, ← channelCode_eq hc hi]
    simp [hi]
  refine ⟨_, readData_ready self data env w hspi hbuf hdata hdrdy, rfl, ?_, ?_, ?_, ?_⟩
  · exact received_eq_of_delivers hb hrx
  · intro i hi
    exact hch env b hb hrx i hi
  · intro env2 b2 i hdrdy2 hb2 hrx2 hi e0 e1 e2
    refine ⟨_, readData_ready self data env2 w hspi hbuf hdata hdrdy2, ?_⟩
    simp only []
    rw [hch env2 b2 hb2 hrx2 i hi, hch env b hb hrx i hi, e0, e1, e2]
  · intro hf
    subst hf
    simp only []
    rw [received_eq_of_delivers hb hrx]
    simp [ADS131_NUM_CHANNELS, List.range_succ, channelCode, frame2, assembleRaw,
      _signExtend24, toInt32]
    decide

/-- C1 at a concrete input: the initialised driver `drv1` reads scenario frame
`frame2` from the bus. -/
theorem readData_channel_value_witness :
    ∃ r, drv1.readData data0 (envOf .LOW frame2 ESP_OK) world0 = .ok r ∧ r.ret = true ∧
      r.self._rxBuf = frame2 ∧
      (∀ i, i < ADS131_NUM_CHANNELS →
        r.data.ch[i]? = some (twosComplement24
          (bigEndian24 (frame2.getD (3 + 3 * i) 0) (frame2.getD (4 + 3 * i) 0)
            (frame2.getD (5 + 3 * i) 0)))) ∧
      (∀ (env2 : Env) (b2 : List Nat) (i : Nat),
        env2.digitalRead drv1._pin_drdy = Level.LOW → IsFrame b2 → Delivers env2 b2 →
        i < ADS131_NUM_CHANNELS →
        b2.getD (3 + 3 * i) 0 = frame2.getD (3 + 3 * i) 0 →
        b2.getD (4 + 3 * i) 0 = frame2.getD (4 + 3 * i) 0 →
        b2.getD (5 + 3 * i) 0 = frame2.getD (5 + 3 * i) 0 →
        ∃ r2, drv1.readData data0 env2 world0 = .ok r2 ∧ r2.data.ch[i]? = r.data.ch[i]?) ∧
      (frame2 = frame2 →
        r.data.ch = [1, -1, 8388607, -8388608, 32768, -32768, 128, 1193046]) :=
  readData_channel_value drv1 data0 (envOf .LOW frame2 ESP_OK) world0 frame2
    (by decide) (by decide) (by decide) rfl (by decide) (delivers_envOf _ _ _)

/-! ## C2: range of the decoded channels -/

/-- C2. For every sequence `b` of 27 bytes, the decoder (the assembly of
`readData` followed by `_signExtend24`) returns eight channel values, each in
`[-8388608, 8388607]`, that is `[-2^23, 2^23 - 1]`, hence inside the `int32_t`
range. -/
theorem parseResponse_range (b : List Nat) (data : ADS131Data)
    (hb : IsFrame b) (hdata : data.ch.length = ADS131_NUM_CHANNELS) :
    ∃ data1 n, parseResponse b data = .ok (data1, n) ∧ data1.ch.length = 8 ∧
      ∀ v ∈ data1.ch, -8388608 ≤ v ∧ v ≤ 8388607 ∧ -(2 : Int) ^ 23 ≤ v ∧ v ≤ 2 ^ 23 - 1 ∧
        -(2 : Int) ^ 31 ≤ v ∧ v < 2 ^ 31 := by
  refine ⟨_, _, parseResponse_eq (by rw [hb.1]) hdata, by simp [ADS131_NUM_CHANNELS], ?_⟩
  intro v hv
  simp only [List.mem_map, List.mem_range] at hv
  obtain ⟨i, hi, rfl⟩ := hv
  rw [channelCode_eq hb hi]
  obtain ⟨hlen, hbyte⟩ := hb
  unfold ADS131_FRAME_BYTES at hlen
  unfold ADS131_NUM_CHANNELS at hi
  have hget : ∀ k, k < 27 → b.getD k 0 < 256 := by
    intro k hk
    rw [List.getD_eq_getElem?_getD, List.getElem?_eq_getElem (by omega)]
    exact hbyte _ (List.getElem_mem _)
  have hr := twosComplement24_range
    (bigEndian24_lt (hget (3 + 3 * i) (by omega)) (hget (4 + 3 * i) (by omega))
      (hget (5 + 3 * i) (by omega)))
  omega

/-- C2 at a concrete input: scenario frame `frame3`. -/
theorem parseResponse_range_witness :
    ∃ data1 n, parseResponse frame3 data0 = .ok (data1, n) ∧ data1.ch.length = 8 ∧
      ∀ v ∈ data1.ch, -8388608 ≤ v ∧ v ≤ 8388607 ∧ -(2 : Int) ^ 23 ≤ v ∧ v ≤ 2 ^ 23 - 1 ∧
        -(2 : Int) ^ 31 ≤ v ∧ v < 2 ^ 31 :=
  parseResponse_range frame3 data0 (by decide) (by decide)

/-! ## C3: round trip -/

/-- C3. Round trip: for every signed code `c` with `-2^23 ≤ c ≤ 2^23 - 1` and
every channel `i` in 0..7, writing the low 24 bits of `c` big-endian into bytes
`3+3i`, `4+3i`, `5+3i` of any 27-byte buffer and decoding that buffer gives
`c` in channel `i`. -/
theorem parseResponse_placeCode (b : List Nat) (data : ADS131Data) (c : Int) (i : Nat)
    (hb : IsFrame b) (hdata : data.ch.length = ADS131_NUM_CHANNELS)
    (hlo : -(2 : Int) ^ 23 ≤ c) (hhi : c ≤ 2 ^ 23 - 1) (hi : i < ADS131_NUM_CHANNELS) :
    ∃ data1 n, parseResponse (placeCode b i c) data = .ok (data1, n) ∧
      data1.ch[i]? = some c := by
  have hp := placeCode_isFrame hb i c
  refine ⟨_, _, parseResponse_eq (by rw [hp.1]) hdata, ?_⟩
  have hlen := hb.1
  unfold ADS131_FRAME_BYTES at hlen
  have hi8 : i < 8 := hi
  have g0 : (placeCode b i c).getD (3 + 3 * i) 0 = (encode24 c).1 := by
    unfold placeCode
    rw [List.getD_eq_getElem?_getD, List.getElem?_set_ne (by omega),
      List.getElem?_set_ne (by omega), List.getElem?_set_self (by omega)]
    rfl
  have g1 : (placeCode b i c).getD (4 + 3 * i) 0 = (encode24 c).2.1 := by
    unfold placeCode
    rw [List.getD_eq_getElem?_getD, List.getElem?_set_ne (by omega),
      List.getElem?_set_self (by simp; omega)]
    rfl
  have g2 : (placeCode b i c).getD (5 + 3 * i) 0 = (encode24 c).2.2 := by
    unfold placeCode
    rw [List.getD_eq_getElem?_getD, List.getElem?_set_self (by simp; omega)]
    rfl
  simp only [List.getElem?_map, List.getElem?_range hi, Option.map_some']
  rw [channelCode_eq hp hi, g0, g1, g2, twosComplement24_encode (by omega) (by omega)]

/-- C3 at a concrete input: the code `-32768` written into channel 5 of the
all-status frame `frame3`. -/
theorem parseResponse_placeCode_witness :
    ∃ data1 n, parseResponse (placeCode frame3 5 (-32768)) data0 = .ok (data1, n) ∧
      data1.ch[5]? = some (-32768) :=
  parseResponse_placeCode frame3 data0 (-32768) 5 (by decide) (by decide) (by decide)
    (by decide) (by decide)

/-! ## C4: data-ready high -/

/-- C4. Whenever the data-ready input reads high when `readData` is called,
`readData` returns false and changes no state: the driver (its 27-byte receive
buffer included) and the caller's frame are returned as they were, the level
driven on every pin (chip-select included) is unchanged, and the only API call
made is the readiness read itself, so no bus transaction is begun,
chip-select is not driven and nothing goes out on the transmit line. -/
theorem readData_not_ready_no_change (self : ADS131M08) (data : ADS131Data) (env : Env)
    (w : World) (hdrdy : env.digitalRead self._pin_drdy = Level.HIGH) :
    ∃ r, self.readData data env w = .ok r ∧ r.ret = false ∧ r.self = self ∧
      r.self._rxBuf = self._rxBuf ∧ r.data = data ∧ r.world.level = w.level ∧
      r.world.log = w.log ++ [.digitalRead self._pin_drdy] ∧
      (∀ c ∈ r.world.log.drop w.log.length,
        (∀ st, c ≠ .spi_beginTransaction st) ∧ (∀ d n, c ≠ .spi_transferBytes d n) ∧
        (∀ p v, c ≠ .digitalWrite p v)) ∧
      r.mosi = [] := by
  refine ⟨_, readData_not_ready self data env w hdrdy, rfl, rfl, rfl, rfl, rfl, rfl, ?_, rfl⟩
  intro c hc
  simp only [World.exec, List.drop_left, List.mem_singleton] at hc
  subst hc
  simp

/-- C4 at a concrete input: the initialised driver `drv1` with data-ready held
high. -/
theorem readData_not_ready_no_change_witness :
    ∃ r, drv1.readData data0 (envOf .HIGH frame2 ESP_OK) world0 = .ok r ∧ r.ret = false ∧
      r.self = drv1 ∧ r.self._rxBuf = drv1._rxBuf ∧ r.data = data0 ∧
      r.world.level = world0.level ∧
      r.world.log = world0.log ++ [.digitalRead drv1._pin_drdy] ∧
      (∀ c ∈ r.world.log.drop world0.log.length,
        (∀ st, c ≠ .spi_beginTransaction st) ∧ (∀ d n, c ≠ .spi_transferBytes d n) ∧
        (∀ p v, c ≠ .digitalWrite p v)) ∧
      r.mosi = [] :=
  readData_not_ready_no_change drv1 data0 (envOf .HIGH frame2 ESP_OK) world0 rfl

/-! ## C5: order of the read transaction -/

/-- C6, counterexample. For the driver `drv0`, an environment in which both
clock-generator configuration calls report `ESP_FAIL` and the bus bring-up
fails leads `begin` to exactly the outcome of an environment in which every
step succeeds; hence no success/failure result of `begin` is failure in the
first and success in the second. -/
theorem begin_same_outcome_on_clock_error :
    (∀ cfg, (envOf .HIGH [] ESP_FAIL).ledc_timer_config cfg ≠ ESP_OK) ∧
    (∀ cfg, (envOf .HIGH [] ESP_FAIL).ledc_channel_config cfg ≠ ESP_OK) ∧
    (envOf .HIGH [] ESP_FAIL).spi_begin = false ∧
    (∀ cfg, (envOf .HIGH [] ESP_OK).ledc_timer_config cfg = ESP_OK) ∧
    (∀ cfg, (envOf .HIGH [] ESP_OK).ledc_channel_config cfg = ESP_OK) ∧
    (envOf .HIGH [] ESP_OK).spi_begin = true ∧
    drv0.begin (envOf .HIGH [] ESP_FAIL) world0 = drv0.begin (envOf .HIGH [] ESP_OK) world0 ∧
    ¬ ∃ result : ADS131M08 × World → Bool,
        result (drv0.begin (envOf .HIGH [] ESP_OK) world0) = true ∧
        result (drv0.begin (envOf .HIGH [] ESP_FAIL) world0) = false := by
  have hne : ESP_FAIL ≠ ESP_OK := by decide
  refine ⟨fun _ => hne, fun _ => hne, by decide, fun _ => rfl, fun _ => rfl, by decide, rfl, ?_⟩
  rintro ⟨result, h1, h2⟩
  rw [begin_eq] at h1 h2
  rw [h1] at h2
  exact Bool.noConfusion h2

/-- C6, amended. `begin` returns no result. Whatever the clock-generator
configuration calls and the bus bring-up report, it makes the same nine API calls in the same order
(timer configuration, channel configuration, 100 ms delay, chip-select as
output, chip-select high, data-ready as input, creation of the bus object, bus
bring-up, 100 ms delay) and leaves the driver with a non-null bus handle; the
reported statuses do not influence its outcome. -/
theorem begin_ignores_config_status (self : ADS131M08) (env : Env) (w : World) :
    (self.begin env w).1 = { self with _spi := some { bus := .FSPI } } ∧
    (self.begin env w).1._spi ≠ none ∧
    (self.begin env w).2.log = w.log ++ beginCalls self ∧
    ∀ env2 : Env, self.begin env2 w = self.begin env w := by
  refine ⟨rfl, ?_, ?_, fun _ => rfl⟩
  · rw [begin_eq]
    simp
  · rw [begin_eq]
    simp [beginCalls, World.exec]

/-! ## C7: chip-select -/

/-- C7. Over the explicit pin state: chip-select is driven high when `begin`
completes; after any sequence of subsequent `readData` calls, whatever each of
them returns, it is high again; and at any moment of that sequence (calls `p`
made since `begin`, calls `s` still to come) at which chip-select is low, the
driver is between the assert and the deassert of one read transaction. -/
theorem chip_select_high_outside_transaction (self : ADS131M08) (envB : Env) (w : World)
    (calls : List (Env × ADS131Data))
    (hbuf : self._rxBuf.length = ADS131_FRAME_BYTES)
    (hdata : ∀ c ∈ calls, c.2.ch.length = ADS131_NUM_CHANNELS) :
    (self.begin envB w).2.level self._pin_cs = Level.HIGH ∧
    ∃ self2 w2, runReads (self.begin envB w).1 (self.begin envB w).2 calls = .ok (self2, w2) ∧
      w2.level self._pin_cs = Level.HIGH ∧
      ∀ p s, w2.log = (self.begin envB w).2.log ++ (p ++ s) →
        (p.foldl World.exec (self.begin envB w).2).level self._pin_cs = Level.LOW →
        InCriticalSection self._pin_cs p s := by
  have hbegin : (self.begin envB w).2.level self._pin_cs = Level.HIGH := by
    rw [begin_eq]
    simp [beginCalls, World.exec]
  obtain ⟨self2, hrun⟩ := runReads_ok calls (self.begin envB w).1 (self.begin envB w).2
    (by rw [begin_eq]; simp) hbuf hdata
  have hpins : (self.begin envB w).1._pin_cs = self._pin_cs ∧
      (self.begin envB w).1._pin_drdy = self._pin_drdy := ⟨rfl, rfl⟩
  rw [hpins.1, hpins.2] at hrun
  obtain ⟨h1, h2⟩ := issuedCalls_level self._pin_cs self._pin_drdy calls _ hbegin
  refine ⟨hbegin, self2, _, hrun, h1, ?_⟩
  intro p s hlog hlow
  rw [foldl_exec_log] at hlog
  exact h2 p s (List.append_cancel_left hlog) hlow

/-- C7 at a concrete input: `drv0` is initialised, then read three times with
data-ready high, low, high. -/
theorem chip_select_high_outside_transaction_witness :
    (drv0.begin (envOf .HIGH [] ESP_OK) world0).2.level drv0._pin_cs = Level.HIGH ∧
    ∃ self2 w2,
      runReads (drv0.begin (envOf .HIGH [] ESP_OK) world0).1
        (drv0.begin (envOf .HIGH [] ESP_OK) world0).2
        [(envOf .HIGH frame2 ESP_OK, data0), (envOf .LOW frame2 ESP_OK, data0),
         (envOf .HIGH frame3 ESP_OK, data0)] = .ok (self2, w2) ∧
      w2.level drv0._pin_cs = Level.HIGH ∧
      ∀ p s, w2.log = (drv0.begin (envOf .HIGH [] ESP_OK) world0).2.log ++ (p ++ s) →
        (p.foldl World.exec (drv0.begin (envOf .HIGH [] ESP_OK) world0).2).level drv0._pin_cs
          = Level.LOW →
        InCriticalSection drv0._pin_cs p s :=
  chip_select_high_outside_transaction drv0 (envOf .HIGH [] ESP_OK) world0
    [(envOf .HIGH frame2 ESP_OK, data0), (envOf .LOW frame2 ESP_OK, data0),
     (envOf .HIGH frame3 ESP_OK, data0)]
    (by decide) (by decide)

/-! ## C8: voltage conversion -/

/-- C8, counterexample. In binary32 `rawToVoltage(-8388608)` is `-1.2f`, that
is `-5033165/4194304`, which is not `-8388608 × (1.2 / 2^23) = -1.2`; and
`rawToVoltage(8388607)` is `10066329/8388608`, which is not
`(2^23 - 1)/2^23 × 1.2`. -/
theorem rawToVoltage_full_scale_not_exact :
    rawToVoltage (-8388608) = .fin (-10066330) (-23) ∧
    (rawToVoltage (-8388608)).toRat = -(5033165 / 4194304) ∧
    specVoltage (-8388608) = -(6 / 5) ∧
    (rawToVoltage (-8388608)).toRat ≠ specVoltage (-8388608) ∧
    rawToVoltage 8388607 = .fin 10066329 (-23) ∧
    (rawToVoltage 8388607).toRat = 10066329 / 8388608 ∧
    specVoltage 8388607 = (8388607 / 8388608) * (6 / 5) ∧
    (rawToVoltage 8388607).toRat ≠ specVoltage 8388607 := by
  have e1 : rawToVoltage (-8388608) = .fin (-10066330) (-23) := by decide
  have e2 : rawToVoltage 8388607 = .fin 10066329 (-23) := by decide
  refine ⟨e1, ?_, ?_, ?_, e2, ?_, ?_, ?_⟩
  · rw [e1]; norm_num [F32.toRat]
  · norm_num [specVoltage]
  · rw [e1]; norm_num [F32.toRat, specVoltage]
  · rw [e2]; norm_num [F32.toRat]
  · norm_num [specVoltage]
  · rw [e2]; norm_num [F32.toRat, specVoltage]

/-- C8, amended. For every `int32_t` code `c`, `rawToVoltage(c)` is a finite
binary32 value that equals `c × (1.2 / 2^23)` up to a relative error of at
most `2^-22`: it is the binary32 product of `(float)c` and the constant
`1.2f / 2^23`, where `1.2f = 5033165/4194304` is the binary32 value nearest to
1.2.  `rawToVoltage(0)` is exactly 0, `rawToVoltage(-8388608)` is exactly
`-1.2f = -5033165/4194304`, and `rawToVoltage(8388607)` is
`10066329/8388608`.  The result is a function of the code alone. -/
theorem rawToVoltage_binary32 (c : Int) (hlo : -2147483648 ≤ c) (hhi : c ≤ 2147483647) :
    (rawToVoltage c).isFinite = true ∧
    |(rawToVoltage c).toRat - specVoltage c| ≤ |specVoltage c| / 2 ^ 22 ∧
    rawToVoltage c = F32.mul (F32.ofInt c) (.fin 10066330 (-46)) ∧
    ADS131_V_REF.toRat = 5033165 / 4194304 ∧
    (F32.fin 10066330 (-46)).toRat = (5033165 / 4194304) / 8388608 ∧
    (rawToVoltage 0).toRat = 0 ∧
    (rawToVoltage (-8388608)).toRat = -(5033165 / 4194304) ∧
    (rawToVoltage 8388607).toRat = 10066329 / 8388608 := by
  obtain ⟨m, e, hv, _, herr⟩ := rawToVoltage_spec c hlo hhi
  have e0 : rawToVoltage 0 = .fin 0 0 := by decide
  have e1 : rawToVoltage (-8388608) = .fin (-10066330) (-23) := by decide
  have e2 : rawToVoltage 8388607 = .fin 10066329 (-23) := by decide
  have e3 : ADS131_V_REF = .fin 10066330 (-23) := by decide
  refine ⟨?_, ?_, ?_, ?_, ?_, ?_, ?_, ?_⟩
  · rw [hv]; rfl
  · rw [hv]; exact herr
  · unfold rawToVoltage; rw [voltsPerCode_eq]
  · rw [e3]; norm_num [F32.toRat]
  · norm_num [F32.toRat]
  · rw [e0]; norm_num [F32.toRat]
  · rw [e1]; norm_num [F32.toRat]
  · rw [e2]; norm_num [F32.toRat]

/-- C8, amended, at a concrete input: the code 123456789, which `(float)`
already rounds. -/
theorem rawToVoltage_binary32_witness :
    (rawToVoltage 123456789).isFinite = true ∧
    |(rawToVoltage 123456789).toRat - specVoltage 123456789| ≤
      |specVoltage 123456789| / 2 ^ 22 ∧
    rawToVoltage 123456789 = F32.mul (F32.ofInt 123456789) (.fin 10066330 (-46)) ∧
    ADS131_V_REF.toRat = 5033165 / 4194304 ∧
    (F32.fin 10066330 (-46)).toRat = (5033165 / 4194304) / 8388608 ∧
    (rawToVoltage 0).toRat = 0 ∧
    (rawToVoltage (-8388608)).toRat = -(5033165 / 4194304) ∧
    (rawToVoltage 8388607).toRat = 10066329 / 8388608 :=
  rawToVoltage_binary32 123456789 (by decide) (by decide)

/-! ## C9: millivolt conversion -/

/-- C9. For every `int32_t` code `c`, `rawToMillivolts(c)` is a finite binary32
value that equals `rawToVoltage(c) × 1000` within floating-point tolerance: the
relative error is at most `2^-24`, half a unit in the last place.
`rawToMillivolts(4194304)` is exactly 600, hence within 1e-3 of 600.0 mV. -/
theorem rawToMillivolts_tolerance (c : Int) (hlo : -2147483648 ≤ c) (hhi : c ≤ 2147483647) :
    (rawToVoltage c).isFinite = true ∧ (rawToMillivolts c).isFinite = true ∧
    |(rawToMillivolts c).toRat - (rawToVoltage c).toRat * 1000| ≤
      |(rawToVoltage c).toRat * 1000| / 2 ^ 24 ∧
    rawToMillivolts 4194304 = .fin 9830400 (-14) ∧
    (rawToMillivolts 4194304).toRat = 600 ∧
    |(rawToMillivolts 4194304).toRat - 600| ≤ 1 / 1000 := by
  obtain ⟨m, e, mv, ev, hv, hmv, herr⟩ := rawToMillivolts_spec c hlo hhi
  have e1 : rawToMillivolts 4194304 = .fin 9830400 (-14) := by decide
  refine ⟨?_, ?_, ?_, e1, ?_, ?_⟩
  · rw [hv]; rfl
  · rw [hmv]; rfl
  · rw [hv, hmv]; exact herr
  · rw [e1]; norm_num [F32.toRat]
  · rw [e1]; norm_num [F32.toRat]

/-- C9 at a concrete input: the code -7654321. -/
theorem rawToMillivolts_tolerance_witness :
    (rawToVoltage (-7654321)).isFinite = true ∧ (rawToMillivolts (-7654321)).isFinite = true ∧
    |(rawToMillivolts (-7654321)).toRat - (rawToVoltage (-7654321)).toRat * 1000| ≤
      |(rawToVoltage (-7654321)).toRat * 1000| / 2 ^ 24 ∧
    rawToMillivolts 4194304 = .fin 9830400 (-14) ∧
    (rawToMillivolts 4194304).toRat = 600 ∧
    |(rawToMillivolts 4194304).toRat - 600| ≤ 1 / 1000 :=
  rawToMillivolts_tolerance (-7654321) (by decide) (by decide)

/-! ## C10: the decoder cannot fail on 27 bytes -/

/-- C10. On a buffer of at least 27 bytes and a frame with eight slots the
decoder does not fault: it returns after exactly 8 iterations of its loop;
for every channel `i` in 0..7 the three indices it reads, `3+3i`, `4+3i`,
`5+3i`, lie in 3..26, below the buffer length `27 = 3 + 3 × 8`, each of the
three checked reads succeeds and the checked write of `data.ch[i]` succeeds. -/
theorem parseResponse_no_fault (b : List Nat) (data : ADS131Data)
    (hb : ADS131_FRAME_BYTES ≤ b.length) (hdata : data.ch.length = ADS131_NUM_CHANNELS) :
    (∃ data1, parseResponse b data = .ok (data1, 8)) ∧
    ADS131_FRAME_BYTES = 3 + 3 * ADS131_NUM_CHANNELS ∧
    ∀ i, i < ADS131_NUM_CHANNELS →
      (3 ≤ 3 + i * 3 ∧ 3 + i * 3 + 2 ≤ 26 ∧ 3 + i * 3 + 2 < ADS131_FRAME_BYTES) ∧
      (3 + i * 3 = 3 + 3 * i ∧ 3 + i * 3 + 1 = 4 + 3 * i ∧ 3 + i * 3 + 2 = 5 + 3 * i) ∧
      (∃ x, readByte b (3 + i * 3) = .ok x) ∧
      (∃ x, readByte b (3 + i * 3 + 1) = .ok x) ∧
      (∃ x, readByte b (3 + i * 3 + 2) = .ok x) ∧
      (∀ v, ∃ data1, writeCh data i v = .ok data1) := by
  refine ⟨⟨_, parseResponse_eq hb hdata⟩, rfl, ?_⟩
  intro i hi
  have hi8 : i < 8 := hi
  have hb27 : 27 ≤ b.length := hb
  refine ⟨by unfold ADS131_FRAME_BYTES; omega, by omega, ⟨_, readByte_ok (by omega)⟩,
    ⟨_, readByte_ok (by omega)⟩, ⟨_, readByte_ok (by omega)⟩, ?_⟩
  intro v
  have hlt : i < data.ch.length := by omega
  exact ⟨{ ch := data.ch.set i v }, by simp [writeCh, hlt]⟩

/-- C10 at a concrete input: scenario frame `frame2` and a zeroed frame. -/
theorem parseResponse_no_fault_witness :
    (∃ data1, parseResponse frame2 data0 = .ok (data1, 8)) ∧
    ADS131_FRAME_BYTES = 3 + 3 * ADS131_NUM_CHANNELS ∧
    ∀ i, i < ADS131_NUM_CHANNELS →
      (3 ≤ 3 + i * 3 ∧ 3 + i * 3 + 2 ≤ 26 ∧ 3 + i * 3 + 2 < ADS131_FRAME_BYTES) ∧
      (3 + i * 3 = 3 + 3 * i ∧ 3 + i * 3 + 1 = 4 + 3 * i ∧ 3 + i * 3 + 2 = 5 + 3 * i) ∧
      (∃ x, readByte frame2 (3 + i * 3) = .ok x) ∧
      (∃ x, readByte frame2 (3 + i * 3 + 1) = .ok x) ∧
      (∃ x, readByte frame2 (3 + i * 3 + 2) = .ok x) ∧
      (∀ v, ∃ data1, writeCh data0 i v = .ok data1) :=
  parseResponse_no_fault frame2 data0 (by decide) (by decide)

end ADS131
